import Mathlib

/-!
Verification of the HPE MSA reconciliation engine (tf-provider-hpe-msa).

This file shallowly embeds the Go source of the provider: strings are
`List Char`, machine integers are `Int` with explicit wrapping where the Go
code can overflow, `float64` values are dyadic numbers `m * 2^e` represented
as integer pairs and rounded to 53 significant bits exactly as IEEE-754
round-to-nearest-even does, and fallible operations return `Option`/`Except`.
Each embedded definition mirrors one Go function and keeps its name.
-/

set_option maxRecDepth 10000

namespace MsaSpec

/-- Go strings are modelled as lists of characters. -/
abbrev Str := List Char

/-- Shorthand turning a Lean string literal into the model representation. -/
def gs (s : String) : Str := s.data

/-! ## Go string primitives (package strings) -/

/-- Model of `unicode.IsSpace` restricted to the ASCII whitespace that the
provider ever feeds it. -/
def goIsSpace (c : Char) : Bool :=
  c = ' ' || c = '\t' || c = '\n' || c = '\x0b' || c = '\x0c' || c = '\r'

/-- `strings.TrimSpace`. -/
def goTrim (s : Str) : Str :=
  ((s.dropWhile goIsSpace).reverse.dropWhile goIsSpace).reverse

/-- `strings.ToLower` (ASCII, which covers every string the provider lowers). -/
def goLower (s : Str) : Str := s.map Char.toLower

/-- `strings.ToUpper` (ASCII). -/
def goUpper (s : Str) : Str := s.map Char.toUpper

/-- `strings.EqualFold` (ASCII case folding). -/
def goEqualFold (a b : Str) : Bool := goLower a = goLower b

/-- Does `hay` start with `pre`? (`strings.HasPrefix`). -/
def goStarts : Str → Str → Bool
  | _, [] => true
  | [], _ :: _ => false
  | h :: hs, p :: ps => h = p && goStarts hs ps

/-- `strings.Contains`. -/
def goContains : Str → Str → Bool
  | hay, sub =>
    if goStarts hay sub then true
    else
      match hay with
      | [] => false
      | _ :: t => goContains t sub

/-- `strings.Split` with a one-character separator.  The result is never
empty; splitting the empty string yields `[[]]`, as in Go. -/
def goSplitChar (sep : Char) : Str → List Str
  | [] => [[]]
  | c :: cs =>
    let r := goSplitChar sep cs
    if c = sep then [] :: r
    else
      match r with
      | [] => [[c]]
      | y :: ys => (c :: y) :: ys

/-- Helper for `strings.Fields`/`strings.FieldsFunc`: split on a predicate,
dropping empty fields. -/
def goFieldsByAux (p : Char → Bool) : Str → Str → List Str
  | [], acc => if acc.isEmpty then [] else [acc.reverse]
  | c :: cs, acc =>
    if p c then
      if acc.isEmpty then goFieldsByAux p cs []
      else acc.reverse :: goFieldsByAux p cs []
    else goFieldsByAux p cs (c :: acc)

/-- `strings.FieldsFunc`. -/
def goFieldsBy (p : Char → Bool) (s : Str) : List Str := goFieldsByAux p s []

/-- `strings.Fields`. -/
def goFields (s : Str) : List Str := goFieldsBy goIsSpace s

/-- `strings.Join`. -/
def goJoin (sep : Str) : List Str → Str
  | [] => []
  | [x] => x
  | x :: y :: rest => x ++ sep ++ goJoin sep (y :: rest)

/-- `strings.Trim` with a cutset of characters. -/
def goTrimSet (cut : Str) (s : Str) : Str :=
  ((s.dropWhile (cut.contains ·)).reverse.dropWhile (cut.contains ·)).reverse

/-- `strings.TrimSuffix` for a one-character suffix. -/
def goTrimOneSuffix (c : Char) (s : Str) : Str :=
  match s.reverse with
  | [] => s
  | x :: xs => if x = c then xs.reverse else s

/-- Removal of a set of single characters, as done by the `strings.NewReplacer`
calls in the source (every replacement target is the empty string). -/
def goRemoveChars (cut : Str) (s : Str) : Str := s.filter (fun c => !cut.contains c)

/-- Go's `append`-style first non-empty selection `firstNonEmpty` from the
msa and provider packages: the first value whose trimmed form is non-empty. -/
def firstNonEmpty : List Str → Str
  | [] => []
  | v :: vs => if goTrim v ≠ [] then v else firstNonEmpty vs

/-! ## Integer parsing (strconv) -/

def digitVal (c : Char) : Nat := c.toNat - '0'.toNat

def isDigitB (c : Char) : Bool := '0' ≤ c && c ≤ '9'

def digitsToNat : Str → Nat → Nat
  | [], acc => acc
  | c :: cs, acc => digitsToNat cs (acc * 10 + digitVal c)

/-- `strconv.ParseInt(s, 10, 64)`, which is also `strconv.Atoi` on 64-bit
platforms: optional sign, one or more decimal digits, int64 range check. -/
def goAtoi64 (s : Str) : Option Int :=
  match s with
  | [] => none
  | c :: rest =>
    let (neg, digits) :=
      if c = '-' then (true, rest)
      else if c = '+' then (false, rest)
      else (false, c :: rest)
    if digits = [] then none
    else if digits.all isDigitB then
      let n : Nat := digitsToNat digits 0
      if neg then
        if n ≤ 2 ^ 63 then some (-(n : Int)) else none
      else
        if n ≤ 2 ^ 63 - 1 then some (n : Int) else none
    else none

/-! ## A dyadic model of float64

IEEE-754 binary64 values that the provider manipulates are dyadic rationals
`m * 2^e`.  We represent them as pairs `(m, e) : Int × Int` (not necessarily
normalised) and implement correctly rounded operations: every arithmetic
result is rounded to 53 significant bits with round-to-nearest, ties to even,
which is exactly what the hardware does in the normal range.  Overflow to
infinity and subnormal underflow never occur for the values the provider
computes and are not modelled. -/

/-- Bit length of a natural number, with explicit fuel so that the kernel can
evaluate it. -/
def bitLenAux : Nat → Nat → Nat
  | 0, _ => 0
  | fuel + 1, n => if n = 0 then 0 else 1 + bitLenAux fuel (n / 2)

def bitLen (n : Nat) : Nat := bitLenAux n n

/-- Round `n / d` to the nearest integer, ties to even (`d > 0`). -/
def rneNat (n d : Nat) : Nat :=
  let q := n / d
  let r := n % d
  if 2 * r < d then q
  else if d < 2 * r then q + 1
  else if q % 2 = 0 then q else q + 1

/-- A float64 value `m * 2^e`. -/
abbrev F64 := Int × Int

/-- Round a dyadic value to 53 significant bits (round to nearest, ties to
even).  This is the rounding step applied after every float64 operation. -/
def roundDyadic (x : F64) : F64 :=
  let a : Nat := x.1.natAbs
  let L := bitLen a
  if L ≤ 53 then x
  else
    let s := L - 53
    let r : Nat := rneNat a (2 ^ s)
    (if x.1 < 0 then -(r : Int) else (r : Int), x.2 + s)

/-- Integer division truncating toward zero (Go's `/` on int64, and the
behaviour of float-to-int conversion on in-range values). -/
def divTrunc (a : Int) (b : Nat) : Int :=
  if a < 0 then -((a.natAbs / b : Nat) : Int) else ((a.natAbs / b : Nat) : Int)

/-- The exact integer part of a dyadic value (truncation toward zero). -/
def truncF64 (x : F64) : Int :=
  if 0 ≤ x.2 then x.1 * 2 ^ x.2.toNat else divTrunc x.1 (2 ^ (-x.2).toNat)

/-- Go `int64(f)` for a float64 `f` that holds an integer value.  In-range
values convert exactly; out-of-range conversions are implementation-specific
in Go and produce the minimal int64 on amd64. -/
def goInt64OfF64 (x : F64) : Int :=
  let v := truncF64 x
  if v < -(2 ^ 63) ∨ 2 ^ 63 ≤ v then -(2 ^ 63) else v

/-- `float64(n)` for an int64 `n`. -/
def f64OfInt (n : Int) : F64 := roundDyadic (n, 0)

/-- Correctly rounded float64 value of the fraction `num / den` (`den > 0`).
Used to model `strconv.ParseFloat` on decimal literals and float division. -/
def ratToF64 (num : Int) (den : Nat) : F64 :=
  if num = 0 then (0, 0)
  else
    let a : Nat := num.natAbs
    let t : Int := (bitLen a : Int) - (bitLen den : Int)
    -- decide whether a/den < 2^t
    let lt : Bool :=
      if 0 ≤ t then decide (a < den * 2 ^ t.toNat)
      else decide (a * 2 ^ (-t).toNat < den)
    let e : Int := if lt then t - 1 else t
    let k : Int := e - 52
    let m : Nat :=
      if 0 ≤ k then rneNat a (den * 2 ^ k.toNat)
      else rneNat (a * 2 ^ (-k).toNat) den
    (if num < 0 then -(m : Int) else (m : Int), k)

/-- Float64 multiplication (round after exact product). -/
def mulF64 (x y : F64) : F64 := roundDyadic (x.1 * y.1, x.2 + y.2)

/-- Float64 addition (round after exact aligned sum). -/
def addF64 (x y : F64) : F64 :=
  if x.2 ≤ y.2 then roundDyadic (x.1 + y.1 * 2 ^ (y.2 - x.2).toNat, x.2)
  else roundDyadic (x.1 * 2 ^ (x.2 - y.2).toNat + y.1, y.2)

/-- `ratToF64` with a possibly negative denominator. -/
def ratToF64Signed (a b : Int) : F64 :=
  if b < 0 then ratToF64 (-a) b.natAbs else ratToF64 a b.natAbs

/-- Float64 division. -/
def divF64 (x y : F64) : F64 :=
  if x.2 ≤ y.2 then ratToF64Signed x.1 (y.1 * 2 ^ (y.2 - x.2).toNat)
  else ratToF64Signed (x.1 * 2 ^ (x.2 - y.2).toNat) y.1

/-- Comparison of dyadic values. -/
def leF64 (x y : F64) : Bool :=
  if x.2 ≤ y.2 then decide (x.1 ≤ y.1 * 2 ^ (y.2 - x.2).toNat)
  else decide (x.1 * 2 ^ (x.2 - y.2).toNat ≤ y.1)

def ltF64 (x y : F64) : Bool :=
  if x.2 ≤ y.2 then decide (x.1 < y.1 * 2 ^ (y.2 - x.2).toNat)
  else decide (x.1 * 2 ^ (x.2 - y.2).toNat < y.1)

/-- The exact rational value of a dyadic float, for specification statements. -/
def f64Val (x : F64) : ℚ :=
  if 0 ≤ x.2 then (x.1 : ℚ) * 2 ^ x.2.toNat else (x.1 : ℚ) / 2 ^ (-x.2).toNat

/-- Two's-complement wrap-around of int64 arithmetic. -/
def wrap64 (x : Int) : Int := (x + 2 ^ 63) % 2 ^ 64 - 2 ^ 63

/-! ## internal/msa: XML response model (xml.go, object.go) -/

structure PropertyGo where
  name : Str
  ptype : Str := []
  psize : Str := []
  value : Str
deriving DecidableEq, Repr

structure ObjectGo where
  baseType : Str
  name : Str
  oid : Str := []
  properties : List PropertyGo
deriving DecidableEq, Repr

structure ResponseGo where
  version : Str := []
  objects : List ObjectGo
deriving DecidableEq, Repr

structure StatusGo where
  responseType : Str := []
  responseTypeNumeric : Int := 0
  response : Str := []
  returnCode : Int := 0
  componentID : Str := []
  timeStamp : Str := []
deriving DecidableEq, Repr

/-- `Object.PropertyValue`: first property with the given name, trimmed. -/
def propertyValue (o : ObjectGo) (key : Str) : Option Str :=
  match o.properties.find? (fun p => p.name = key) with
  | some p => some (goTrim p.value)
  | none => none

/-- `Object.PropertyMap` lookup: Go map indexing returns the zero value for a
missing key, and a later duplicate property overwrites an earlier one. -/
def propMapGet (o : ObjectGo) (key : Str) : Str :=
  match o.properties.reverse.find? (fun p => p.name = key) with
  | some p => goTrim p.value
  | none => []

/-- `parseInt` from xml.go: trims, then `strconv.Atoi`, storing 0 for empty or
unparsable input. -/
def parseIntGo (value : Str) : Int :=
  let v := goTrim value
  if v = [] then 0
  else
    match goAtoi64 v with
    | none => 0
    | some n => n

/-- `Response.Status`: the first object whose base type or name is `status`,
decoded field by field. -/
def responseStatus (r : ResponseGo) : Option StatusGo :=
  match r.objects.find? (fun o => o.baseType = gs "status" || o.name = gs "status") with
  | none => none
  | some obj =>
    some
      { responseType := (propertyValue obj (gs "response-type")).getD []
        responseTypeNumeric :=
          match propertyValue obj (gs "response-type-numeric") with
          | some v => parseIntGo v
          | none => 0
        response := (propertyValue obj (gs "response")).getD []
        returnCode :=
          match propertyValue obj (gs "return-code") with
          | some v => parseIntGo v
          | none => 0
        componentID := (propertyValue obj (gs "component-id")).getD []
        timeStamp := (propertyValue obj (gs "time-stamp")).getD [] }

/-- `Status.Success`. -/
def statusSuccess (s : StatusGo) : Bool :=
  if s.responseTypeNumeric ≠ 0 then false
  else if s.responseType ≠ [] && goLower s.responseType ≠ gs "success" then false
  else true

/-- The typed API error of errors.go, carrying the full status record. -/
structure APIErrorGo where
  status : StatusGo
deriving DecidableEq, Repr

/-- The response-classification step of `Client.Do` (client.go lines 190-194):
a parsed response is returned as-is unless it carries a status object that is
not successful, in which case a typed `APIError` with that status surfaces. -/
def doClassify (r : ResponseGo) : Except APIErrorGo ResponseGo :=
  match responseStatus r with
  | some st => if statusSuccess st then .ok r else .error ⟨st⟩
  | none => .ok r

/-- The success predicate the specification claims for `Client.Do`: a status
object exists, its numeric type is 0, and its response type is empty or
`success` case-insensitively. -/
def specDoSuccess (r : ResponseGo) : Bool :=
  match responseStatus r with
  | some st => statusSuccess st
  | none => false

/-- `Response.ObjectsWithoutStatus` (object.go): every object whose base type
and name differ from `status`. -/
def objectsWithoutStatus (r : ResponseGo) : List ObjectGo :=
  r.objects.filter (fun o => !(o.baseType = gs "status" || o.name = gs "status"))

/-- A response carrying one status object whose `response-type-numeric`
property holds `v` and whose `response-type` property is absent. -/
def statusRespWithNumeric (v : Str) : ResponseGo :=
  { objects :=
      [{ baseType := gs "status"
         name := gs "status"
         properties := [{ name := gs "response-type-numeric", value := v }] }] }

/-! ## internal/msa: volume-copy jobs (volume copy adapter file) -/

/-- `VolumeCopyJob` from the msa package.  The raw property map is carried as
the originating object's property list. -/
structure VolumeCopyJobGo where
  id : Str := []
  source : Str := []
  target : Str := []
  status : Str := []
  etaRaw : Str := []
  eta : Int := 0
  hasETA : Bool := false
  active : Bool := false
  properties : List PropertyGo := []
deriving DecidableEq, Repr

/-! ## terraform-plugin-framework value model -/

/-- `types.String`: unknown, null, or a concrete value. -/
inductive TFStr where
  | unknown
  | null
  | val (s : Str)
deriving DecidableEq, Repr

/-- `types.String.ValueString()`: the zero value for null/unknown. -/
def tfStrValue : TFStr → Str
  | .val s => s
  | _ => []

def tfIsUnknown : TFStr → Bool
  | .unknown => true
  | _ => false

def tfIsNull : TFStr → Bool
  | .null => true
  | _ => false

/-- `types.Bool`. -/
inductive TFBool where
  | unknown
  | null
  | val (b : Bool)
deriving DecidableEq, Repr

def tfBoolValue : TFBool → Bool
  | .val b => b
  | _ => false

def tfBoolIsUnknown : TFBool → Bool
  | .unknown => true
  | _ => false

def tfBoolIsNull : TFBool → Bool
  | .null => true
  | _ => false

/-! ## internal/msa: Volume record and adapter -/

/-- `Volume` from the msa package, in the revision the reconcilers build
against (it carries the host-visible `WWN`, which `cloneStateFromModel` and
the adapter tests read). -/
structure VolumeGo where
  name : Str := []
  serialNumber : Str := []
  durableID : Str := []
  poolName : Str := []
  vdiskName : Str := []
  size : Str := []
  sizeNumeric : Str := []
  wwn : Str := []
  properties : List PropertyGo := []
deriving DecidableEq, Repr

/-! ## internal/provider: volume and clone state projections -/

/-- The stored state / plan record of the volume resource. -/
structure VolumeResourceModel where
  id : TFStr := .null
  name : TFStr := .null
  size : TFStr := .null
  pool : TFStr := .null
  vdisk : TFStr := .null
  durableID : TFStr := .null
  serialNumber : TFStr := .null
  wwid : TFStr := .null
  allowDestroy : TFBool := .null
deriving DecidableEq, Repr

/-- The stored state / plan record of the clone resource. -/
structure CloneResourceModel where
  id : TFStr := .null
  name : TFStr := .null
  sourceSnapshot : TFStr := .null
  destinationPool : TFStr := .null
  pool : TFStr := .null
  vdisk : TFStr := .null
  durableID : TFStr := .null
  serialNumber : TFStr := .null
  wwid : TFStr := .null
  scsiWWN : TFStr := .null
  allowDestroy : TFBool := .null
deriving DecidableEq, Repr

/-- `volumeStateFromModel` (resource_volume.go lines 423-443). -/
def volumeStateFromModel (model : VolumeResourceModel) (volume : VolumeGo) :
    VolumeResourceModel :=
  let state := { model with name := .val volume.name }
  let state := if volume.poolName ≠ [] then { state with pool := .val volume.poolName } else state
  let state := if volume.vdiskName ≠ [] then { state with vdisk := .val volume.vdiskName } else state
  let state :=
    if volume.durableID ≠ [] then { state with durableID := .val volume.durableID } else state
  if volume.serialNumber ≠ [] then
    { state with
      serialNumber := .val volume.serialNumber
      id := .val volume.serialNumber
      wwid := .val volume.serialNumber }
  else state

/-- `cloneStateFromModel` (resource_clone.go lines 587-612). -/
def cloneStateFromModel (model : CloneResourceModel) (volume : VolumeGo) :
    CloneResourceModel :=
  let state := { model with name := .val volume.name }
  let state := if volume.poolName ≠ [] then { state with pool := .val volume.poolName } else state
  let state := if volume.vdiskName ≠ [] then { state with vdisk := .val volume.vdiskName } else state
  let state :=
    if volume.durableID ≠ [] then { state with durableID := .val volume.durableID } else state
  let state :=
    if volume.serialNumber ≠ [] then
      { state with
        serialNumber := .val volume.serialNumber
        id := .val volume.serialNumber
        wwid := .val volume.serialNumber }
    else state
  if volume.wwn ≠ [] then { state with scsiWWN := .val volume.wwn }
  else { state with scsiWWN := .null }

/-! ## internal/provider: volume mapping reconciler (resource_volume_mapping.go) -/

/-- A user-visible diagnostic (summary, detail). -/
structure DiagGo where
  summary : Str
  detail : Str
deriving DecidableEq, Repr

/-- `types.Set` of strings. -/
inductive TFSet where
  | unknown
  | null
  | val (items : List Str)
deriving DecidableEq, Repr

/-- `setToStrings` (resource_host.go): nil for null/unknown, otherwise the
elements trimmed with empties dropped. -/
def setToStrings : TFSet → List Str
  | .unknown => []
  | .null => []
  | .val items => (items.map goTrim).filter (fun s => s ≠ [])

/-- Does a `types.Set` hold an actual (possibly empty) collection? -/
def tfSetIsConcrete : TFSet → Bool
  | .val _ => true
  | _ => false

/-- The plan/state record of the volume-mapping resource (the raw property
map is irrelevant to the embedded operations). -/
structure VolumeMappingResourceModel where
  id : TFStr := .null
  volumeName : TFStr := .null
  targetType : TFStr := .null
  targetName : TFStr := .null
  access : TFStr := .null
  lun : TFStr := .null
  ports : TFSet := .null
deriving DecidableEq, Repr

/-- `buildTargetSpec` (resource_volume_mapping.go lines 329-354). -/
def buildTargetSpec (targetType targetName : TFStr) : Except DiagGo Str :=
  if tfIsUnknown targetType || tfIsNull targetType then
    .error ⟨gs "Invalid target_type", gs "target_type is required"⟩
  else if tfIsUnknown targetName || tfIsNull targetName ||
      decide (goTrim (tfStrValue targetName) = []) then
    .error ⟨gs "Invalid target_name", gs "target_name is required"⟩
  else
    let typeValue := goTrim (tfStrValue targetType)
    let nameValue := goTrim (tfStrValue targetName)
    if typeValue = gs "host" then .ok (nameValue ++ gs ".*")
    else if typeValue = gs "host_group" then .ok (nameValue ++ gs ".*.*")
    else if typeValue = gs "initiator" then .ok nameValue
    else
      .error ⟨gs "Invalid target_type",
        gs "target_type must be host, host_group, or initiator"⟩

/-- `normalizeAccess` (resource_volume_mapping.go lines 356-378). -/
def normalizeAccess (value : TFStr) : Except DiagGo Str :=
  if tfIsNull value || tfIsUnknown value then .ok (gs "read-write")
  else
    let raw := goTrim (tfStrValue value)
    if raw = [] then .ok (gs "read-write")
    else
      let low := goLower raw
      if low = gs "rw" ∨ low = gs "read-write" then .ok (gs "read-write")
      else if low = gs "ro" ∨ low = gs "read-only" then .ok (gs "read-only")
      else if low = gs "no-access" then .ok (gs "no-access")
      else
        .error ⟨gs "Invalid access",
          gs "access must be read-write, read-only, no-access, rw, or ro"⟩

/-- Did a fallible operation succeed? -/
def exceptOk {ε α : Type} : Except ε α → Bool
  | .ok _ => true
  | .error _ => false

/-- `mappingID` (resource_volume_mapping.go line 448). -/
def mappingID (volume targetSpec : Str) : Str := volume ++ gs ":" ++ targetSpec

/-- The pure prefix of `volumeMappingResource.Create` (lines 121-199): input
validation, target-spec synthesis, access normalization and assembly of the
`map volume` command, together with the composite id the state will store. -/
def mappingCreatePlan (plan : VolumeMappingResourceModel) :
    Except DiagGo (List Str × Str) := do
  let volume := goTrim (tfStrValue plan.volumeName)
  if volume = [] then
    throw ⟨gs "Invalid configuration", gs "volume_name is required"⟩
  let targetSpec ← buildTargetSpec plan.targetType plan.targetName
  let access ← normalizeAccess plan.access
  let ports := setToStrings plan.ports
  let lun := goTrim (tfStrValue plan.lun)
  if access ≠ gs "no-access" ∧ lun = [] then
    throw ⟨gs "Invalid configuration", gs "lun is required for explicit mappings"⟩
  if ports ≠ [] ∧ lun = [] then
    throw ⟨gs "Invalid configuration", gs "lun is required when ports are specified"⟩
  let parts := [gs "map", gs "volume"]
  let parts := if access ≠ [] then parts ++ [gs "access", access] else parts
  let parts := if ports ≠ [] then parts ++ [gs "ports", goJoin (gs ",") ports] else parts
  let parts := if lun ≠ [] then parts ++ [gs "lun", lun] else parts
  let parts := parts ++ [gs "initiator", targetSpec, volume]
  pure (parts, mappingID volume targetSpec)

/-! ## internal/provider: host-group membership diff (host group reconciler) -/

/-- `normalizeName` (datasource_helpers.go): lower-case of the trimmed name. -/
def normalizeName (value : Str) : Str := goLower (goTrim value)

/-- The loop body of `normalizedNameMap`: walk the values, keep the first
trimmed value for each normalized key, preserving encounter order.  The
accumulator holds the kept (key, trimmed value) pairs in reverse order. -/
def normalizedNameMapAux : List Str → List (Str × Str) → List (Str × Str)
  | [], acc => acc.reverse
  | v :: vs, acc =>
    let trimmed := goTrim v
    if trimmed = [] then normalizedNameMapAux vs acc
    else
      let key := normalizeName trimmed
      if key = [] then normalizedNameMapAux vs acc
      else if acc.any (fun p => p.1 = key) then normalizedNameMapAux vs acc
      else normalizedNameMapAux vs ((key, trimmed) :: acc)

/-- `normalizedNameMap` (host group reconciler): the de-duplicated
(key, trimmed value) association produced from a list of names, where the map
and the insertion-order key list of the Go function are fused into one
ordered association list (its `map Prod.fst` is the Go `order` slice and
lookup by key matches the Go map because keys are unique). -/
def normalizedNameMap (values : List Str) : List (Str × Str) :=
  normalizedNameMapAux values []

/-- `diffHostGroupMembers` (host group reconciler, part_008 lines 413-432). -/
def diffHostGroupMembers (desired actual : List Str) : List Str × List Str :=
  let dp := normalizedNameMap desired
  let ap := normalizedNameMap actual
  let add := (dp.filter (fun p => !(ap.any (fun q => q.1 = p.1)))).map Prod.snd
  let rem := (ap.filter (fun p => !(dp.any (fun q => q.1 = p.1)))).map Prod.snd
  (add, rem)

/-! ## Go time.ParseDuration and the msa ETA parsers -/

/-- `leadingInt` from Go's time package: consume leading digits into an int64
with overflow detection. -/
def goLeadingIntAux : Str → Int → Option (Int × Str)
  | [], x => some (x, [])
  | c :: cs, x =>
    if isDigitB c then
      if (2 ^ 63 - 1) / 10 < x then none
      else
        let x2 := x * 10 + digitVal c
        if 2 ^ 63 ≤ x2 then none
        else goLeadingIntAux cs x2
    else some (x, c :: cs)

def goLeadingInt (s : Str) : Option (Int × Str) := goLeadingIntAux s 0

/-- `leadingFraction` from Go's time package: int64 accumulator plus a
float64 scale, digits beyond the overflow point consumed but ignored. -/
def goLeadingFractionAux : Str → Int → F64 → Bool → Int × F64 × Str
  | [], f, scale, _ => (f, scale, [])
  | c :: cs, f, scale, overflow =>
    if isDigitB c then
      if overflow then goLeadingFractionAux cs f scale overflow
      else if (2 ^ 63 - 1) / 10 < f then goLeadingFractionAux cs f scale true
      else
        let y := f * 10 + digitVal c
        if 2 ^ 63 ≤ y then goLeadingFractionAux cs f scale true
        else goLeadingFractionAux cs y (mulF64 scale (10, 0)) overflow
    else (f, scale, c :: cs)

def goLeadingFraction (s : Str) : Int × F64 × Str := goLeadingFractionAux s 0 (1, 0) false

/-- The unit table of `time.ParseDuration` (nanoseconds per unit). -/
def goDurationUnitNS (u : Str) : Option Int :=
  if u = gs "ns" then some 1
  else if u = gs "us" then some 1000
  else if u = gs "µs" then some 1000
  else if u = gs "μs" then some 1000
  else if u = gs "ms" then some 1000000
  else if u = gs "s" then some 1000000000
  else if u = gs "m" then some 60000000000
  else if u = gs "h" then some 3600000000000
  else none

/-- The term loop of `time.ParseDuration`, with fuel bounded by the input
length (every iteration consumes at least one character). -/
def goParseDurationLoop : Nat → Str → Int → Option Int
  | 0, _, _ => none
  | fuel + 1, s, d =>
    match s with
    | [] => some d
    | c :: _ =>
      if !(c = '.' || isDigitB c) then none
      else
        match goLeadingInt s with
        | none => none
        | some (v, s1) =>
          let pre := decide (s1.length ≠ s.length)
          let fr :=
            match s1 with
            | '.' :: srest =>
              let r := goLeadingFraction srest
              (r.1, r.2.1, r.2.2, decide (r.2.2.length ≠ srest.length))
            | _ => ((0 : Int), ((1 : Int), (0 : Int)), s1, false)
          let f := fr.1
          let scale := fr.2.1
          let s2 := fr.2.2.1
          let post := fr.2.2.2
          if !pre && !post then none
          else
            let u := s2.takeWhile (fun ch => !(ch = '.' || isDigitB ch))
            let s4 := s2.drop u.length
            if u = [] then none
            else
              match goDurationUnitNS u with
              | none => none
              | some unit =>
                if (2 ^ 63 - 1) / unit < v then none
                else
                  let v2 := v * unit
                  let v3 :=
                    if 0 < f then
                      v2 + truncF64 (mulF64 (f64OfInt f) (divF64 (unit, 0) scale))
                    else v2
                  if 2 ^ 63 ≤ v3 then none
                  else
                    let d2 := d + v3
                    if 2 ^ 63 ≤ d2 then none
                    else goParseDurationLoop fuel s4 d2

/-- `time.ParseDuration`, on the decimal duration grammar the provider feeds
it.  The result is int64 nanoseconds; the int64 overflow checks of the Go
implementation are carried over as explicit bound checks. -/
def goParseDuration (s : Str) : Option Int :=
  let signed : Bool × Str :=
    match s with
    | '-' :: rest => (true, rest)
    | '+' :: rest => (false, rest)
    | _ => (false, s)
  let neg := signed.1
  let s1 := signed.2
  if s1 = gs "0" then some 0
  else if s1 = [] then none
  else
    match goParseDurationLoop (s1.length + 1) s1 0 with
    | none => none
    | some d => some (if neg then -d else d)

/-- Nanoseconds per second/minute/hour/day. -/
def nsPerSecond : Int := 1000000000

def nsPerMinute : Int := 60000000000

def nsPerHour : Int := 3600000000000

def nsPerDay : Int := 86400000000000

/-- `parseColonDuration` (volume copy adapter): `MM:SS` or `HH:MM:SS` with
non-negative integer components.  Multiplications wrap as int64. -/
def parseColonDuration (value : Str) : Option Int :=
  let parts := goSplitChar ':' (goTrim value)
  let comps := parts.map (fun part => goAtoi64 (goTrim part))
  if comps.any (fun c => c.isNone || decide (c.getD 0 < 0)) then none
  else
    match comps with
    | [some m, some s] => some (wrap64 (wrap64 (m * nsPerMinute) + wrap64 (s * nsPerSecond)))
    | [some h, some m, some s] =>
      some (wrap64 (wrap64 (wrap64 (h * nsPerHour) + wrap64 (m * nsPerMinute)) +
        wrap64 (s * nsPerSecond)))
    | _ => none

/-- The scan loop of `parseHumanDuration`: on a successful amount/unit pair
both fields are consumed, otherwise the scan advances one field. -/
def parseHumanAux : List Str → Int → Bool → Int × Bool
  | [], total, matched => (total, matched)
  | [_], total, matched => (total, matched)
  | a :: b :: rest, total, matched =>
    match goAtoi64 (goTrim a) with
    | none => parseHumanAux (b :: rest) total matched
    | some amount =>
      if amount < 0 then parseHumanAux (b :: rest) total matched
      else
        let unit := goTrimSet (gs ",") (goTrim b)
        if goStarts unit (gs "d") then
          parseHumanAux rest (wrap64 (total + wrap64 (amount * nsPerDay))) true
        else if goStarts unit (gs "h") then
          parseHumanAux rest (wrap64 (total + wrap64 (amount * nsPerHour))) true
        else if goStarts unit (gs "m") then
          parseHumanAux rest (wrap64 (total + wrap64 (amount * nsPerMinute))) true
        else if goStarts unit (gs "s") then
          parseHumanAux rest (wrap64 (total + wrap64 (amount * nsPerSecond))) true
        else parseHumanAux (b :: rest) total matched

/-- `parseHumanDuration` (volume copy adapter): forms like
`3 minutes 5 seconds`. -/
def parseHumanDuration (value : Str) : Option Int :=
  let fields := goFields value
  if fields.length < 2 then none
  else
    let r := parseHumanAux fields 0 false
    if !r.2 then none else some r.1

/-- The textual placeholders `parseVolumeCopyETA` rejects. -/
def etaPlaceholders : List Str :=
  [gs "n/a", gs "na", gs "none", gs "unknown", gs "-", gs "--"]

/-- `parseVolumeCopyETA` (volume copy adapter, part_013 lines 314-347).
Returns the ETA in nanoseconds and whether an ETA is available. -/
def parseVolumeCopyETA (value : Str) : Int × Bool :=
  let v := goTrim value
  if v = [] then (0, false)
  else
    let normalized := goLower v
    if etaPlaceholders.contains normalized then (0, false)
    else
      match parseColonDuration v with
      | some parsed => (parsed, true)
      | none =>
        match goAtoi64 v with
        | some parsed =>
          if parsed < 0 then (0, false)
          else (wrap64 (parsed * nsPerSecond), true)
        | none =>
          let compact := goRemoveChars (gs " ") normalized
          match goParseDuration compact with
          | some parsed => (parsed, true)
          | none =>
            match parseHumanDuration normalized with
            | some parsed => (parsed, true)
            | none => (0, false)

/-! ## internal/provider: volume size parsing and matching (resource_volume.go) -/

def isAsciiLetter (c : Char) : Bool :=
  ('A' ≤ c && c ≤ 'Z') || ('a' ≤ c && c ≤ 'z')

/-- `\s` of Go's regexp package: `[\t\n\f\r ]`. -/
def isRegexSpace (c : Char) : Bool :=
  c = ' ' || c = '\t' || c = '\n' || c = '\x0c' || c = '\r'

/-- The anchored match of `^([0-9]*\.?[0-9]+)\s*([A-Za-z]+)?$` used by
`parseSizeToBytes`: integer digits, optional fraction digits, optional unit
letters.  Returns `(integer digits, fraction digits, unit)`. -/
def parseSizeRegex (s : Str) : Option (Str × Str × Str) :=
  let d1 := s.takeWhile isDigitB
  let r1 := s.drop d1.length
  match r1 with
  | '.' :: r2 =>
    let d2 := r2.takeWhile isDigitB
    let r3 := r2.drop d2.length
    if d2 = [] then none
    else
      let sp := r3.takeWhile isRegexSpace
      let r4 := r3.drop sp.length
      let u := r4.takeWhile isAsciiLetter
      let r5 := r4.drop u.length
      if r5 = [] then some (d1, d2, u) else none
  | _ =>
    if d1 = [] then none
    else
      let sp := r1.takeWhile isRegexSpace
      let r4 := r1.drop sp.length
      let u := r4.takeWhile isAsciiLetter
      let r5 := r4.drop u.length
      if r5 = [] then some (d1, [], u) else none

/-- The decimal and binary unit tables of `parseSizeToBytes`, as exact float64
values (every multiplier up to 10^15 and 2^50 is exactly representable). -/
def sizeUnitMultiplier (unit : Str) : Option F64 :=
  if unit = gs "B" then some (1, 0)
  else if unit = gs "KB" then some (1000, 0)
  else if unit = gs "MB" then some (1000000, 0)
  else if unit = gs "GB" then some (1000000000, 0)
  else if unit = gs "TB" then some (1000000000000, 0)
  else if unit = gs "PB" then some (1000000000000000, 0)
  else if unit = gs "K" then some (1000, 0)
  else if unit = gs "M" then some (1000000, 0)
  else if unit = gs "G" then some (1000000000, 0)
  else if unit = gs "T" then some (1000000000000, 0)
  else if unit = gs "P" then some (1000000000000000, 0)
  else if unit = gs "KIB" then some (1, 10)
  else if unit = gs "MIB" then some (1, 20)
  else if unit = gs "GIB" then some (1, 30)
  else if unit = gs "TIB" then some (1, 40)
  else if unit = gs "PIB" then some (1, 50)
  else none

/-- `parseSizeToBytes` (resource_volume.go lines 486-539): trim, match the
size regex, parse the decimal number to float64, look up the unit multiplier
and truncate `value*multiplier + 0.5` to int64. -/
def parseSizeToBytes (raw : Str) : Except Str Int :=
  let r := goTrim raw
  if r = [] then .error (gs "size is required")
  else
    match parseSizeRegex r with
    | none => .error (gs "invalid size")
    | some (d1, d2, u) =>
      let value : F64 := ratToF64 (digitsToNat (d1 ++ d2) 0 : Int) (10 ^ d2.length)
      if leF64 value (0, 0) then .error (gs "invalid size")
      else
        let unit := goUpper (goTrim u)
        if unit = [] then .error (gs "invalid size")
        else
          match sizeUnitMultiplier unit with
          | none => .error (gs "invalid size unit")
          | some mult => .ok (goInt64OfF64 (addF64 (mulF64 value mult) (1, -1)))

/-- `math.Abs` on a dyadic float. -/
def absF64 (x : F64) : F64 := ((x.1.natAbs : Int), x.2)

/-- The binary64 value nearest to the literal `0.001`:
`4611686018427388 * 2^-62`. -/
def pointOnePercentF64 : F64 := (4611686018427388, -62)

/-- `sizeTolerance` (resource_volume.go lines 477-484): the larger of 8 MiB
and `int64(float64(planBytes) * 0.001)`. -/
def sizeTolerance (planBytes : Int) : Int :=
  let minTolerance : Int := 8 * 1024 * 1024
  let relative := goInt64OfF64 (mulF64 (f64OfInt planBytes) pointOnePercentF64)
  if relative < minTolerance then minTolerance else relative

/-- `volumeSizeMatches` (resource_volume.go lines 459-475).  The int64
subtraction and the `blocks * 512` product wrap as in Go. -/
def volumeSizeMatches (planSize : Str) (volume : VolumeGo) : Except Str Bool :=
  match parseSizeToBytes planSize with
  | .error e => .error e
  | .ok planBytes =>
    if volume.sizeNumeric = [] then .error (gs "volume size-numeric is missing")
    else
      match goAtoi64 volume.sizeNumeric with
      | none => .error (gs "invalid size-numeric")
      | some blocks =>
        let volumeBytes := wrap64 (blocks * 512)
        let diff := goInt64OfF64 (absF64 (f64OfInt (wrap64 (planBytes - volumeBytes))))
        let tolerance := sizeTolerance planBytes
        .ok (decide (diff ≤ tolerance))

/-! ## internal/provider: clone copy-conflict retry planner (resource_clone.go) -/

def cloneCopyConflictETAMaxRetries : Int := 3

/-- 5 seconds, in nanoseconds. -/
def cloneCopyETASafetyBuffer : Int := 5 * 1000000000

def cloneRetryPathETA : Str := gs "eta"

def cloneRetryPathNoETA : Str := gs "no-eta"

/-- The fixed no-ETA waiting ladder (15 s, 30 s, 45 s, 180 s, 300 s), in
nanoseconds. -/
def cloneCopyConflictNoETAWaits : List Int :=
  [15 * 1000000000, 30 * 1000000000, 45 * 1000000000,
   180 * 1000000000, 300 * 1000000000]

inductive CloneConflictStrategy where
  | unset
  | eta
  | noETA
deriving DecidableEq, Repr

structure CloneConflictRetryPlanner where
  strategy : CloneConflictStrategy := .unset
  etaRetries : Int := 0
  noETARetries : Int := 0
  lastETA : Int := 0
deriving DecidableEq, Repr

/-- `cloneConflictRetryPlanner.next` (resource_clone.go lines 313-345).
Returns the updated planner state, the wait, the retry path label, and
whether another retry is allowed. -/
def cloneConflictRetryPlannerNext (p : CloneConflictRetryPlanner)
    (job : Option VolumeCopyJobGo) :
    CloneConflictRetryPlanner × Int × Str × Bool :=
  let p1 :=
    if p.strategy = .unset then
      { p with
        strategy :=
          match job with
          | some j => if j.hasETA then .eta else .noETA
          | none => .noETA }
    else p
  let p2 :=
    match job with
    | some j => if j.hasETA then { p1 with lastETA := j.eta } else p1
    | none => p1
  match p2.strategy with
  | .eta =>
    if cloneCopyConflictETAMaxRetries ≤ p2.etaRetries then
      (p2, 0, cloneRetryPathETA, false)
    else
      let wait :=
        if 0 < p2.lastETA then cloneCopyETASafetyBuffer + p2.lastETA
        else cloneCopyETASafetyBuffer
      ({ p2 with etaRetries := p2.etaRetries + 1 }, wait, cloneRetryPathETA, true)
  | _ =>
    if (cloneCopyConflictNoETAWaits.length : Int) ≤ p2.noETARetries then
      (p2, 0, cloneRetryPathNoETA, false)
    else
      let wait := cloneCopyConflictNoETAWaits.getD p2.noETARetries.toNat 0
      ({ p2 with noETARetries := p2.noETARetries + 1 }, wait, cloneRetryPathNoETA, true)

/-! ## internal/provider: cross-process destroy lock (destroy_lock.go) -/

/-- The observable state `tryReapStaleDestroyGlobalLock` probes on contention:
the pid recorded in the owner file (0 when absent or unparsable), the
`processExists` liveness probe, the lock directory's age (from its
modification time) and the configured wait ceiling, both in nanoseconds. -/
structure DestroyLockProbe where
  pid : Int
  alive : Int → Bool
  ageNS : Int
  waitNS : Int

/-- `tryReapStaleDestroyGlobalLock` (destroy_lock.go lines 109-158), as the
decision it takes and the removal operations it performs in order.  The
filesystem error branches of the two `os.Remove` calls are not modelled. -/
def tryReapStaleDestroyGlobalLock (p : DestroyLockProbe) : Bool × List Str × List Str :=
  let init : Bool × List Str :=
    if 0 < p.pid then
      if p.alive p.pid then (true, []) else (false, [gs "dead_pid"])
    else (false, [])
  let ownerAlive := init.1
  let reasons :=
    if !ownerAlive && decide (p.waitNS ≤ p.ageNS) then init.2 ++ [gs "age"] else init.2
  if reasons = [] then (false, reasons, [])
  else (true, reasons, [gs "remove owner file", gs "remove lock directory"])
/-! ## internal/msa: mapping and volume-copy adapters (part_010/part_013) -/

/-- One entry of `Object.PropertyMap()`: each distinct property name once (in
first-occurrence order), carrying the trimmed value of its last occurrence.
Every guardrail predicate over the map is order-independent, so the Go map's
unspecified iteration order is immaterial. -/
def propMapPairs (o : ObjectGo) : List (Str × Str) :=
  (o.properties.map (fun p => p.name)).dedup.map (fun k => (k, propMapGet o k))

/-- `Mapping` from the msa package. -/
structure MappingGo where
  volume : Str := []
  volumeSerial : Str := []
  lun : Str := []
  access : Str := []
  ports : Str := []
  properties : List (Str × Str) := []
deriving DecidableEq, Repr

/-- `MappingsFromResponse`: objects with a non-empty volume name and a
non-empty `lun` become mapping records. -/
def mappingsFromResponse (r : ResponseGo) : List MappingGo :=
  (objectsWithoutStatus r).filterMap (fun o =>
    let volume := firstNonEmpty
      [propMapGet o (gs "volume"), propMapGet o (gs "volume-name"), propMapGet o (gs "name")]
    if volume = [] then none
    else if propMapGet o (gs "lun") = [] then none
    else some { volume := volume,
                volumeSerial := firstNonEmpty
                  [propMapGet o (gs "volume-serial"), propMapGet o (gs "serial-number")],
                lun := propMapGet o (gs "lun"),
                access := propMapGet o (gs "access"),
                ports := propMapGet o (gs "ports"),
                properties := propMapPairs o })

/-- `hasAnyProperty` (map values are already trimmed). -/
def hasAnyProperty (o : ObjectGo) (keys : List Str) : Bool :=
  keys.any (fun k => propMapGet o k ≠ [])

/-- `firstPropertyValue`. -/
def firstPropertyValue (o : ObjectGo) : List Str → Str
  | [] => []
  | k :: rest =>
    let v := propMapGet o k
    if v = [] then firstPropertyValue o rest else v

def volumeCopyJobIDKeys : List Str :=
  [gs "job-id", gs "copy-job-id", gs "serial-number", gs "id"]

def volumeCopySourceKeys : List Str :=
  [gs "source-volume-name", gs "source-volume", gs "source-name", gs "source",
   gs "base-volume", gs "base-volume-name", gs "master-volume-name"]

def volumeCopyTargetKeys : List Str :=
  [gs "destination-volume-name", gs "destination-volume", gs "destination-name",
   gs "destination", gs "target-volume-name", gs "target-volume", gs "target-name",
   gs "target", gs "volume-name", gs "name"]

def volumeCopyStatusKeys : List Str :=
  [gs "copy-status", gs "status", gs "state", gs "job-status", gs "progress-status"]

def volumeCopyETAKeys : List Str :=
  [gs "estimated-time-remaining", gs "estimated-time-to-completion",
   gs "estimated-time-left", gs "time-remaining", gs "time-to-complete",
   gs "remaining-time", gs "eta", gs "seconds-to-completion",
   gs "estimated-seconds-to-complete"]

def volumeCopyProgressKeys : List Str :=
  [gs "progress", gs "progress-percent", gs "copy-progress", gs "percent-complete"]

/-- `containsAny` (referenced throughout the guardrail; its definition is not
in the repository snapshot, so it is modelled from its uses and the spec:
substring containment against any candidate). -/
def containsAny (s : Str) (cands : List Str) : Bool :=
  cands.any (fun c => goContains s c)

/-- The decimal digits of a natural number. -/
def natDecimalAux : Nat → Nat → Str → Str
  | 0, _, acc => acc
  | fuel + 1, n, acc =>
    if n = 0 then acc
    else natDecimalAux fuel (n / 10) (Char.ofNat ('0'.toNat + n % 10) :: acc)

def natDecimal (n : Nat) : Str :=
  if n = 0 then gs "0" else natDecimalAux n n []

def stripTrailingZeroChars (s : Str) : Str :=
  (s.reverse.dropWhile (fun c => c = '0')).reverse

def padLeftZeros (w : Nat) (s : Str) : Str :=
  List.replicate (w - s.length) '0' ++ s

/-- The fractional part printed by `time.Duration.String`'s `fmtFrac`: the low
`prec` decimal digits of `u` with trailing zeros removed, preceded by a point,
or nothing when they are all zero. -/
def fmtFracStr (u prec : Nat) : Str :=
  let f := u % 10 ^ prec
  if f = 0 then [] else '.' :: stripTrailingZeroChars (padLeftZeros prec (natDecimal f))

/-- `time.Duration.String` on a nanosecond count. -/
def goDurationString (d : Int) : Str :=
  let u := d.natAbs
  let core :=
    if u < 1000000000 then
      if u = 0 then gs "0s"
      else if u < 1000 then natDecimal u ++ gs "ns"
      else if u < 1000000 then natDecimal (u / 1000) ++ fmtFracStr u 3 ++ gs "µs"
      else natDecimal (u / 1000000) ++ fmtFracStr u 6 ++ gs "ms"
    else
      let total := u / 1000000000
      let secPart := natDecimal (total % 60) ++ fmtFracStr u 9 ++ gs "s"
      let mins := total / 60
      if mins = 0 then secPart
      else
        let minPart := natDecimal (mins % 60) ++ gs "m" ++ secPart
        let hrs := mins / 60
        if hrs = 0 then minPart else natDecimal hrs ++ gs "h" ++ minPart
  if d < 0 then '-' :: core else core

/-- `strconv.ParseFloat` restricted to plain decimal literals
(`[+-]?digits[.digits]`), the only shapes the array's progress fields take;
exponent and hexadecimal forms are not modelled. -/
def parseFloatDecGo (s : Str) : Option F64 :=
  let signBody : Bool × Str :=
    match s with
    | '-' :: r => (true, r)
    | '+' :: r => (false, r)
    | r => (false, r)
  let neg := signBody.1
  let body := signBody.2
  let d1 := body.takeWhile isDigitB
  let r1 := body.drop d1.length
  match r1 with
  | '.' :: r2 =>
    let d2 := r2.takeWhile isDigitB
    if d1 = [] && d2 = [] then none
    else if r2.drop d2.length ≠ [] then none
    else some (ratToF64 ((if neg then -1 else 1) * (digitsToNat (d1 ++ d2) 0 : Int))
      (10 ^ d2.length))
  | [] =>
    if d1 = [] then none
    else some (ratToF64 ((if neg then -1 else 1) * (digitsToNat d1 0 : Int)) 1)
  | _ => none

/-- `parseProgressPercent`: strip a `%` suffix, trim, parse as float64. -/
def parseProgressPercent (value : Str) : Option F64 :=
  let trimmed := goTrim (goTrimOneSuffix '%' value)
  if trimmed = [] then none else parseFloatDecGo trimmed

def volumeCopyTerminalMarkers : List Str :=
  [gs "complete", gs "completed", gs "success", gs "succeeded", gs "failed",
   gs "failure", gs "error", gs "aborted", gs "canceled", gs "cancelled",
   gs "stopped", gs "done"]

def volumeCopyActiveMarkers : List Str :=
  [gs "progress", gs "running", gs "copy", gs "active", gs "queued",
   gs "pending", gs "starting", gs "in-progress"]

/-- `isVolumeCopyJobActive`. -/
def isVolumeCopyJobActive (status : Str) (o : ObjectGo) : Bool :=
  let ns := goLower (goTrim status)
  if ns ≠ [] && containsAny ns volumeCopyTerminalMarkers then false
  else if ns ≠ [] && containsAny ns volumeCopyActiveMarkers then true
  else
    match parseProgressPercent (firstPropertyValue o volumeCopyProgressKeys) with
    | some pct => ltF64 pct (100, 0)
    | none => true

/-- `isVolumeCopyObject`. -/
def isVolumeCopyObject (o : ObjectGo) : Bool :=
  let baseType := goLower (goTrim o.baseType)
  let name := goLower (goTrim o.name)
  if goContains baseType (gs "volume-copy") || goContains name (gs "volume-copy") then true
  else if goContains baseType (gs "copy") && goContains baseType (gs "volume") then true
  else hasAnyProperty o volumeCopySourceKeys && hasAnyProperty o volumeCopyTargetKeys

/-- `volumeCopyJobFromObject`. -/
def volumeCopyJobFromObject (o : ObjectGo) : VolumeCopyJobGo :=
  let etaRaw := firstPropertyValue o volumeCopyETAKeys
  let etaPair := parseVolumeCopyETA etaRaw
  let status := firstPropertyValue o volumeCopyStatusKeys
  { id := firstNonEmpty [firstPropertyValue o volumeCopyJobIDKeys, goTrim o.oid],
    source := firstPropertyValue o volumeCopySourceKeys,
    target := firstPropertyValue o volumeCopyTargetKeys,
    status := status,
    etaRaw := etaRaw,
    eta := etaPair.1,
    hasETA := etaPair.2,
    active := isVolumeCopyJobActive status o,
    properties := o.properties }

/-- `VolumeCopyJobsFromResponse`. -/
def volumeCopyJobsFromResponse (r : ResponseGo) : List VolumeCopyJobGo :=
  ((objectsWithoutStatus r).filter isVolumeCopyObject).map volumeCopyJobFromObject

/-! ## internal/provider: pre-delete usage guardrail (resource_clone_test.go,
doc 2) and the volume / clone Delete bodies -/

/-- A Go error as seen by the delete path: a typed msa API error, the two
context sentinels that `errors.Is` singles out, or any other error text. -/
inductive ErrGo where
  | api (status : StatusGo)
  | canceled
  | deadline
  | other (msg : Str)
deriving DecidableEq, Repr

/-- The array as an oracle: each executed command word list yields a response
or an error. -/
def ExecGo : Type := List Str → Except ErrGo ResponseGo

/-- `Error()` on the modelled errors (`msa.APIError.Error` from errors.go;
the stdlib texts of the two context sentinels). -/
def errGoText : ErrGo → Str
  | .api s => if goTrim s.response = [] then gs "command failed"
              else gs "command failed: " ++ goTrim s.response
  | .canceled => gs "context canceled"
  | .deadline => gs "context deadline exceeded"
  | .other m => m

def errGoTextOpt : Option ErrGo → Str
  | some e => errGoText e
  | none => gs "<nil>"

/-- `errors.Is(err, context.Canceled) || errors.Is(err, context.DeadlineExceeded)`. -/
def isInterruptErr : Option ErrGo → Bool
  | some .canceled => true
  | some .deadline => true
  | _ => false

/-- `volumeProbeAPIErrorMessage`. -/
def volumeProbeAPIErrorMessage : ErrGo → Option Str
  | .api s =>
    let m := goLower (goTrim s.response)
    if m = [] then none else some m
  | _ => none

def unsupportedProbeMarkers : List Str :=
  [gs "invalid command", gs "unknown command", gs "unrecognized command",
   gs "command not recognized", gs "not supported", gs "unsupported",
   gs "not available", gs "syntax error", gs "invalid option",
   gs "illegal parameter", gs "invalid parameter"]

def notFoundProbeMarkers : List Str :=
  [gs "no such volume", gs "volume does not exist", gs "no object",
   gs "not found", gs "does not exist"]

def isUnsupportedUsageProbeError (e : ErrGo) : Bool :=
  match volumeProbeAPIErrorMessage e with
  | some m => containsAny m unsupportedProbeMarkers
  | none => false

def isNotFoundUsageProbeError (e : ErrGo) : Bool :=
  match volumeProbeAPIErrorMessage e with
  | some m => containsAny m notFoundProbeMarkers
  | none => false

def isSkippableUsageProbeError (e : ErrGo) : Bool :=
  isUnsupportedUsageProbeError e || isNotFoundUsageProbeError e

/-- `volumeIdentityHints`: trim, drop empties, de-duplicate case-insensitively
keeping the first occurrence. -/
def volumeIdentityHintsAux : List Str → List Str → List Str
  | [], _ => []
  | v :: rest, seen =>
    let t := goTrim v
    if t = [] then volumeIdentityHintsAux rest seen
    else
      let key := goLower t
      if seen.contains key then volumeIdentityHintsAux rest seen
      else t :: volumeIdentityHintsAux rest (key :: seen)

def volumeIdentityHints (values : List Str) : List Str :=
  volumeIdentityHintsAux values []

/-- `splitIdentityTokens` (`strings.FieldsFunc` on everything outside
`[a-z0-9-_.]`). -/
def splitIdentityTokens (value : Str) : List Str :=
  goFieldsBy (fun c =>
    !(('a' ≤ c && c ≤ 'z') || ('0' ≤ c && c ≤ '9') || c = '-' || c = '_' || c = '.')) value

/-- `compactIdentity`: trim, then delete `:`, `-`, `_`, `.` and spaces. -/
def compactIdentity (value : Str) : Str :=
  goRemoveChars (gs ":-_. ") (goTrim value)

/-- `volumeIdentityMatches`. -/
def volumeIdentityMatches (value : Str) (identities : List Str) : Bool :=
  let v := goTrim value
  if v = [] then false
  else
    let nv := goLower v
    let nvc := compactIdentity nv
    let tokens := splitIdentityTokens nv
    identities.any (fun raw =>
      let identity := goTrim raw
      if identity = [] then false
      else
        let ni := goLower identity
        nv = ni ||
        (compactIdentity ni ≠ [] && nvc = compactIdentity ni) ||
        tokens.any (fun token =>
          token = ni || (compactIdentity token ≠ [] && compactIdentity token = compactIdentity ni)) ||
        (8 ≤ ni.length && goContains nv ni))

/-- `probeVolumeMappings`, command waterfall. -/
def probeVolumeMappingsLoop (exec : ExecGo) (identities : List Str) :
    List (List Str) → Option ErrGo → Nat × Str × Option ErrGo
  | [], lastErr => (0, [], lastErr)
  | parts :: rest, lastErr =>
    match exec parts with
    | .error e =>
      if isSkippableUsageProbeError e then probeVolumeMappingsLoop exec identities rest lastErr
      else probeVolumeMappingsLoop exec identities rest (some e)
    | .ok response =>
      let count := (mappingsFromResponse response).countP (fun mp =>
        volumeIdentityMatches mp.volume identities ||
        volumeIdentityMatches mp.volumeSerial identities)
      if count ≠ 0 then (count, goJoin (gs " ") parts, none)
      else probeVolumeMappingsLoop exec identities rest lastErr

def probeVolumeMappings (exec : ExecGo) (identities : List Str) :
    Nat × Str × Option ErrGo :=
  probeVolumeMappingsLoop exec identities
    (identities.map (fun identity => [gs "show", gs "maps", gs "volume", identity]) ++
      [[gs "show", gs "maps"]]) none

/-- `probeActiveVolumeCopyJob`, command waterfall. -/
def probeActiveVolumeCopyJobLoop (exec : ExecGo) (identities : List Str) :
    List (List Str) → Option ErrGo → Option VolumeCopyJobGo × Str × Option ErrGo
  | [], lastErr => (none, [], lastErr)
  | parts :: rest, lastErr =>
    match exec parts with
    | .error e =>
      if isSkippableUsageProbeError e then probeActiveVolumeCopyJobLoop exec identities rest lastErr
      else probeActiveVolumeCopyJobLoop exec identities rest (some e)
    | .ok response =>
      match (volumeCopyJobsFromResponse response).find? (fun job =>
        job.active && (volumeIdentityMatches job.source identities ||
          volumeIdentityMatches job.target identities)) with
      | some job => (some job, goJoin (gs " ") parts, none)
      | none => probeActiveVolumeCopyJobLoop exec identities rest lastErr

def probeActiveVolumeCopyJob (exec : ExecGo) (identities : List Str) :
    Option VolumeCopyJobGo × Str × Option ErrGo :=
  probeActiveVolumeCopyJobLoop exec identities
    [[gs "show", gs "volume-copy"], [gs "show", gs "volume-copies"]] none

/-- `hasPropertyKeyContaining` (map keys are the distinct property names). -/
def hasPropertyKeyContaining (o : ObjectGo) (cands : List Str) : Bool :=
  o.properties.any (fun p => containsAny (goLower (goTrim p.name)) cands)

/-- `isConnectionOrSessionObject`. -/
def isConnectionOrSessionObject (o : ObjectGo) : Bool :=
  let shape := goLower (goTrim (o.baseType ++ gs " " ++ o.name))
  if containsAny shape [gs "connection", gs "session"] then true
  else hasPropertyKeyContaining o [gs "connection", gs "session"]

/-- `connectionObjectReferencesVolume`. -/
def connectionObjectReferencesVolume (o : ObjectGo) (identities : List Str) : Bool :=
  (propMapPairs o).any (fun kv =>
    let lowerKey := goLower (goTrim kv.1)
    if lowerKey = [] then false
    else if containsAny lowerKey
        [gs "volume", gs "serial", gs "durable", gs "wwn", gs "wwid"] then
      volumeIdentityMatches kv.2 identities
    else if lowerKey = gs "name" && volumeIdentityMatches kv.2 identities then
      hasPropertyKeyContaining o [gs "volume", gs "serial", gs "durable", gs "lun"]
    else false)

def connectionInactiveMarkers : List Str :=
  [gs "disconnected", gs "logged out", gs "logout", gs "inactive", gs "offline",
   gs "closed", gs "down", gs "failed", gs "not connected", gs "no session"]

/-- `connectionObjectActive`. -/
def connectionObjectActive (o : ObjectGo) : Bool :=
  let statusValues := (propMapPairs o).filterMap (fun kv =>
    let lowerKey := goLower (goTrim kv.1)
    if containsAny lowerKey
        [gs "status", gs "state", gs "session", gs "connection", gs "login"] then
      let t := goLower (goTrim kv.2)
      if t = [] then none else some t
    else none)
  if statusValues = [] then true
  else statusValues.all (fun st => !containsAny st connectionInactiveMarkers)

/-- `activeVolumeConnectionCount`. -/
def activeVolumeConnectionCount (r : ResponseGo) (identities : List Str) : Nat :=
  (objectsWithoutStatus r).countP (fun o =>
    isConnectionOrSessionObject o &&
    connectionObjectReferencesVolume o identities &&
    connectionObjectActive o)

/-- `probeActiveVolumeConnections`, command waterfall. -/
def probeActiveVolumeConnectionsLoop (exec : ExecGo) (identities : List Str) :
    List (List Str) → Option ErrGo → Nat × Str × Option ErrGo
  | [], lastErr => (0, [], lastErr)
  | parts :: rest, lastErr =>
    match exec parts with
    | .error e =>
      if isSkippableUsageProbeError e then
        probeActiveVolumeConnectionsLoop exec identities rest lastErr
      else probeActiveVolumeConnectionsLoop exec identities rest (some e)
    | .ok response =>
      let count := activeVolumeConnectionCount response identities
      if count ≠ 0 then (count, goJoin (gs " ") parts, none)
      else probeActiveVolumeConnectionsLoop exec identities rest lastErr

def probeActiveVolumeConnections (exec : ExecGo) (identities : List Str) :
    Nat × Str × Option ErrGo :=
  probeActiveVolumeConnectionsLoop exec identities
    ((identities.map (fun identity =>
        [[gs "show", gs "connections", gs "volume", identity],
         [gs "show", gs "sessions", gs "volume", identity]])).flatten ++
      [[gs "show", gs "connections"], [gs "show", gs "sessions"],
       [gs "show", gs "host-connections"]]) none

/-- `pluralize`. -/
def pluralize (count : Nat) (singular plural : Str) : Str :=
  if count = 1 then singular else plural

/-- `titleCaseWord` (not in the repository snapshot; modelled from its uses
and the expected labels in the tests: upper-case the first character of the
trimmed word). -/
def titleCaseWord (w : Str) : Str :=
  match goTrim w with
  | [] => []
  | c :: rest => c.toUpper :: rest

/-- `withDeleteClassification` (not in the repository snapshot; modelled from
the spec's two-part classification and the tests, which require the detail to
contain "Classification: terminal" / "Classification: retryable"). -/
def withDeleteClassification (retryable : Bool) (text : Str) : Str :=
  text ++ gs " Classification: " ++ (if retryable then gs "retryable." else gs "terminal.")

/-- Go `%q` on the identity labels that reach it (strings without characters
needing escapes). -/
def goQuoteGo (s : Str) : Str := '"' :: (s ++ ['"'])

/-- `volumeDeleteGuardrail` (struct definition not in the snapshot; fields
reconstructed from its uses). -/
structure VolumeDeleteGuardrailGo where
  summary : Str := []
  detail : Str := []
  retryable : Bool := false
deriving DecidableEq, Repr

/-- `copyJobContext` on a present job. -/
def copyJobContext (job : VolumeCopyJobGo) : Str :=
  let parts :=
    (if goTrim job.id ≠ [] then [gs "job id=" ++ goTrim job.id] else []) ++
    (if goTrim job.source ≠ [] then [gs "source=" ++ goTrim job.source] else []) ++
    (if goTrim job.target ≠ [] then [gs "target=" ++ goTrim job.target] else []) ++
    (if job.hasETA then [gs "eta=" ++ goDurationString job.eta] else [])
  if parts = [] then gs "job details unavailable" else goJoin (gs " ") parts

/-- `preDeleteVolumeUsageGuardrail` (resource_clone_test.go doc 2, lines
80-187).  A `none` result is the function's `ok = false`; the nil-client early
return is the caller passing no oracle and is outside the model. -/
def preDeleteVolumeUsageGuardrail (exec : ExecGo) (resourceKind : Str)
    (hints : List Str) : Option VolumeDeleteGuardrailGo :=
  let identities := volumeIdentityHints hints
  if identities = [] then none
  else
    let kind := if goTrim resourceKind = [] then gs "volume" else goTrim resourceKind
    let resourceLabel := titleCaseWord kind
    let targetLabel := identities.headD []
    let mp := probeVolumeMappings exec identities
    if isInterruptErr mp.2.2 then
      some { summary := resourceLabel ++ gs " deletion interrupted",
             detail := withDeleteClassification true
               (gs "Pre-delete mapping probe was interrupted before deletion could continue: " ++
                 errGoTextOpt mp.2.2),
             retryable := true }
    else if mp.1 ≠ 0 then
      some { summary := resourceLabel ++ gs " deletion blocked: mapped",
             detail := withDeleteClassification false
               (resourceLabel ++ gs " " ++ goQuoteGo targetLabel ++ gs " is still mapped (" ++
                 natDecimal mp.1 ++ gs " " ++
                 pluralize mp.1 (gs "mapping entry") (gs "mapping entries") ++
                 gs " detected via `" ++ mp.2.1 ++
                 gs "`). Remove related `hpe_msa_volume_mapping` resources (or unmap directly on the array), then run `terraform apply` again."),
             retryable := false }
    else
      let cp := probeActiveVolumeCopyJob exec identities
      if isInterruptErr cp.2.2 then
        some { summary := resourceLabel ++ gs " deletion interrupted",
               detail := withDeleteClassification true
                 (gs "Pre-delete volume-copy probe was interrupted before deletion could continue: " ++
                   errGoTextOpt cp.2.2),
               retryable := true }
      else
        match cp.1 with
        | some job =>
          some { summary := resourceLabel ++ gs " deletion blocked: active copy",
                 detail := withDeleteClassification true
                   (resourceLabel ++ gs " " ++ goQuoteGo targetLabel ++
                     gs " is participating in an active volume-copy job (" ++
                     copyJobContext job ++ gs ", discovered via `" ++ cp.2.1 ++
                     gs "`). Wait for the copy to finish, then run `terraform apply` again."),
                 retryable := true }
        | none =>
          let cn := probeActiveVolumeConnections exec identities
          if isInterruptErr cn.2.2 then
            some { summary := resourceLabel ++ gs " deletion interrupted",
                   detail := withDeleteClassification true
                     (gs "Pre-delete connection/session probe was interrupted before deletion could continue: " ++
                       errGoTextOpt cn.2.2),
                   retryable := true }
          else if cn.1 ≠ 0 then
            some { summary := resourceLabel ++ gs " deletion blocked: active sessions",
                   detail := withDeleteClassification true
                     (resourceLabel ++ gs " " ++ goQuoteGo targetLabel ++
                       gs " still has active host/initiator connection " ++
                       pluralize cn.1 (gs "entry") (gs "entries") ++
                       gs " (detected via `" ++ cn.2.1 ++
                       gs "`). Disconnect active hosts or end sessions, then run `terraform apply` again."),
                   retryable := true }
          else none

/-- The delete target computed by both Delete bodies: the trimmed id, or the
(untrimmed) name when the trimmed id is empty. -/
def volumeDeleteTarget (state : VolumeResourceModel) : Str :=
  let id := goTrim (tfStrValue state.id)
  if id = [] then tfStrValue state.name else id

def cloneDeleteTarget (state : CloneResourceModel) : Str :=
  let id := goTrim (tfStrValue state.id)
  if id = [] then tfStrValue state.name else id

/-- `volumeResource.Delete` (resource_volume.go lines 268-303), from the
allow-destroy check on (state decoding and the nil-client refusal are
framework plumbing).  Returns the commands issued to the array, in order, and
the diagnostics added. -/
def volumeResourceDelete (state : VolumeResourceModel) (exec : ExecGo) :
    List (List Str) × List DiagGo :=
  if tfBoolIsUnknown state.allowDestroy || !tfBoolValue state.allowDestroy then
    ([], [{ summary := gs "Deletion blocked",
            detail := gs "Set allow_destroy = true to permit volume deletion." }])
  else
    let target := volumeDeleteTarget state
    if goTrim target = [] then
      ([], [{ summary := gs "Invalid state",
              detail := gs "Volume ID or name is required for deletion" }])
    else
      match exec [gs "delete", gs "volumes", target] with
      | .error e =>
        ([[gs "delete", gs "volumes", target]],
         [{ summary := gs "Unable to delete volume", detail := errGoText e }])
      | .ok _ => ([[gs "delete", gs "volumes", target]], [])

/-- `cloneResource.Delete` (resource_clone.go lines 255-289). -/
def cloneResourceDelete (state : CloneResourceModel) (exec : ExecGo) :
    List (List Str) × List DiagGo :=
  if tfBoolIsUnknown state.allowDestroy || tfBoolIsNull state.allowDestroy ||
      !tfBoolValue state.allowDestroy then
    ([], [{ summary := gs "Deletion blocked",
            detail := gs "Set allow_destroy = true to permit clone deletion." }])
  else
    let target := cloneDeleteTarget state
    if goTrim target = [] then
      ([], [{ summary := gs "Invalid state",
              detail := gs "clone ID or name is required for deletion" }])
    else
      match exec [gs "delete", gs "volumes", target] with
      | .error e =>
        ([[gs "delete", gs "volumes", target]],
         [{ summary := gs "Unable to delete clone", detail := errGoText e }])
      | .ok _ => ([[gs "delete", gs "volumes", target]], [])

/-- The mapped fixture of TestPreDeleteVolumeUsageGuardrailMapped
(volume_delete_intelligence_test.go): one host-view mapping row for
`vol-data-01`. -/
def mappedFixtureResponse : ResponseGo :=
  { objects := [
      { baseType := gs "host-view-mappings",
        name := gs "volume-view",
        properties := [
          { name := gs "volume", value := gs "vol-data-01" },
          { name := gs "volume-serial", value := gs "00c0ff3cab9c00000000000002010000" },
          { name := gs "access", value := gs "read-write" },
          { name := gs "lun", value := gs "12" }] }] }

/-- The fake probe client of the intelligence tests, extended so that the
delete command itself succeeds: the mapping probe reports the fixture row,
every other command fails like the fake client (`Invalid command`). -/
def mappedExec : ExecGo := fun parts =>
  if parts = [gs "show", gs "maps", gs "volume", gs "vol-data-01"] then
    .ok mappedFixtureResponse
  else if parts = [gs "delete", gs "volumes", gs "vol-data-01"] then
    .ok { objects := [] }
  else
    .error (.api { response := gs "Invalid command" })

end MsaSpec

namespace MsaSpec

/-! ## General lemmas about the string primitives -/

theorem dropWhile_idem (p : Char → Bool) (l : Str) :
    (l.dropWhile p).dropWhile p = l.dropWhile p := by
  induction l with
  | nil => rfl
  | cons c t ih =>
    by_cases h : p c
    · simp [List.dropWhile_cons, h, ih]
    · simp [List.dropWhile_cons, h]

theorem dropWhile_eq_self_of_prefix (p : Char → Bool) (l w : Str)
    (hl : l.dropWhile p = l) (hw : w <+: l) : w.dropWhile p = w := by
  cases w with
  | nil => rfl
  | cons c t =>
    cases l with
    | nil => simp at hw
    | cons c₂ t₂ =>
      obtain ⟨rest, hrest⟩ := hw
      have hc : c = c₂ := by
        have := congrArg (List.head?) hrest
        simpa using this
      subst hc
      by_cases h : p c
      · exfalso
        rw [List.dropWhile_cons, if_pos h] at hl
        have : (t₂.dropWhile p).length ≤ t₂.length := (List.dropWhile_sublist p).length_le
        have hlen := congrArg List.length hl
        simp at hlen
        omega
      · rw [List.dropWhile_cons, if_neg h]

theorem goTrim_prefix_core (p : Char → Bool) (l : Str) :
    (l.dropWhile p).reverse.dropWhile p = ((l.dropWhile p).reverse.dropWhile p).dropWhile p :=
  (dropWhile_idem p _).symm

theorem goTrim_idem (s : Str) : goTrim (goTrim s) = goTrim s := by
  unfold goTrim
  set p := goIsSpace
  set u := s.dropWhile p with hu
  set t := (u.reverse.dropWhile p).reverse with ht
  have hfront : u.dropWhile p = u := dropWhile_idem p s
  have htpre : t <+: u := by
    rw [ht]
    have := List.reverse_prefix.mpr (List.dropWhile_suffix (l := u.reverse) p)
    simpa using this
  have h1 : t.dropWhile p = t := dropWhile_eq_self_of_prefix p u t hfront htpre
  rw [h1]
  have h2 : t.reverse.dropWhile p = t.reverse := by
    rw [ht, List.reverse_reverse]
    exact dropWhile_idem p _
  rw [h2, List.reverse_reverse]

theorem goTrim_nil : goTrim [] = [] := rfl

/-! ## C6 / C9: response classification -/

/-- C6 counterexample: a response with no status object at all is classified
as successful by `Client.Do` even though the claimed success condition (a
status object exists and is successful) is false for it. -/
theorem c6_missing_status_counterexample :
    doClassify { objects := [] } = .ok { objects := [] } ∧
      specDoSuccess { objects := [] } = false := by
  constructor <;> rfl

/-- C6 (amended): `Client.Do` accepts a response iff it has no status object
or its status object is successful (numeric 0 and response type empty or
`success` case-insensitively); a response with a failing status object yields
a typed `APIError` carrying that status record verbatim. -/
theorem c6_do_classification (r : ResponseGo) :
    (responseStatus r = none → doClassify r = .ok r) ∧
      (∀ st : StatusGo, responseStatus r = some st → statusSuccess st = true →
        doClassify r = .ok r) ∧
      (∀ st : StatusGo, responseStatus r = some st → statusSuccess st = false →
        doClassify r = .error ⟨st⟩) := by
  refine ⟨?_, ?_, ?_⟩
  · intro h
    simp [doClassify, h]
  · intro st h hs
    simp [doClassify, h, hs]
  · intro st h hs
    simp [doClassify, h, hs]

/-- C6 witness: the amended theorem applied to a response with a failing
status object. -/
theorem c6_do_classification_witness :
    doClassify (statusRespWithNumeric (gs "3")) =
      .error ⟨{ responseTypeNumeric := 3 }⟩ := by
  refine (c6_do_classification (statusRespWithNumeric (gs "3"))).2.2
    { responseTypeNumeric := 3 } (by decide) (by decide)

/-- C9 (confirmed): an empty or unparsable `response-type-numeric` property
decodes to 0, and a status object carrying such a value with an absent
response type is classified as successful, so `Client.Do` raises no
`APIError` for it. -/
theorem c9_unparsable_numeric_is_success (v : Str)
    (hv : goAtoi64 (goTrim v) = none) :
    parseIntGo v = 0 ∧
      responseStatus (statusRespWithNumeric v) =
        some { responseTypeNumeric := 0 } ∧
      doClassify (statusRespWithNumeric v) = .ok (statusRespWithNumeric v) := by
  have hparse : parseIntGo v = 0 := by
    unfold parseIntGo
    by_cases h : goTrim v = []
    · simp [h]
    · simp [h, hv]
  have hparse2 : parseIntGo (goTrim v) = 0 := by
    unfold parseIntGo
    rw [goTrim_idem]
    by_cases h : goTrim v = []
    · simp [h]
    · simp [h, hv]
  refine ⟨hparse, ?_, ?_⟩
  · simp only [responseStatus, statusRespWithNumeric, List.find?]
    simp [propertyValue, List.find?, gs, hparse2]
  · simp only [doClassify]
    simp only [responseStatus, statusRespWithNumeric, List.find?]
    simp [propertyValue, List.find?, gs, hparse2, statusSuccess]

/-- C9 witness: the numeric value `12x` does not parse, decodes to 0, and the
response carrying it passes classification. -/
theorem c9_unparsable_numeric_is_success_witness :
    parseIntGo (gs "12x") = 0 ∧
      responseStatus (statusRespWithNumeric (gs "12x")) =
        some { responseTypeNumeric := 0 } ∧
      doClassify (statusRespWithNumeric (gs "12x")) =
        .ok (statusRespWithNumeric (gs "12x")) :=
  c9_unparsable_numeric_is_success (gs "12x") (by decide)

end MsaSpec

namespace MsaSpec

/-! ## C3: stale destroy-lock reclamation -/

/-- C3 counterexample: a contended lock whose directory age (1200 s) exceeds
the wait ceiling (600 s) is NOT reclaimed when the recorded owner pid (4242)
is still alive, contradicting the claim that an over-age lock is reclaimable
regardless of owner liveness. -/
theorem c3_live_owner_overage_counterexample :
    (tryReapStaleDestroyGlobalLock
        { pid := 4242, alive := fun _ => true,
          ageNS := 1200 * 1000000000, waitNS := 600 * 1000000000 }).1 = false ∧
      (600 * 1000000000 : Int) < 1200 * 1000000000 := by
  constructor
  · rfl
  · norm_num

/-- C3 (amended): a contended lock is reclaimed iff the owner file records a
positive pid that cannot be signalled, or no positive pid is recorded and the
directory age reaches the wait ceiling; an over-age lock whose recorded pid is
alive is left alone.  When the lock is reclaimed, the owner file is removed
first and the lock directory second. -/
theorem c3_reap_characterization (p : DestroyLockProbe) :
    ((tryReapStaleDestroyGlobalLock p).1 = true ↔
      ((0 < p.pid ∧ p.alive p.pid = false) ∨ (p.pid ≤ 0 ∧ p.waitNS ≤ p.ageNS))) ∧
      ((tryReapStaleDestroyGlobalLock p).1 = true →
        (tryReapStaleDestroyGlobalLock p).2.2 =
          [gs "remove owner file", gs "remove lock directory"]) := by
  by_cases hp : 0 < p.pid
  · by_cases ha : p.alive p.pid = true
    · by_cases hw : p.waitNS ≤ p.ageNS
      · simp [tryReapStaleDestroyGlobalLock, hp, ha, hw]
      · simp [tryReapStaleDestroyGlobalLock, hp, ha, hw]
    · have ha2 : p.alive p.pid = false := by
        cases h : p.alive p.pid
        · rfl
        · exact absurd h ha
      by_cases hw : p.waitNS ≤ p.ageNS
      · simp [tryReapStaleDestroyGlobalLock, hp, ha2, hw, gs]
      · simp [tryReapStaleDestroyGlobalLock, hp, ha2, hw, gs]
  · have hple : p.pid ≤ 0 := by omega
    by_cases hw : p.waitNS ≤ p.ageNS
    · simp [tryReapStaleDestroyGlobalLock, hp, hw, gs]
      exact hple
    · simp [tryReapStaleDestroyGlobalLock, hp, hw]

/-- C3 amendment witness: a dead recorded pid is reclaimed, with the owner
file removed before the directory. -/
theorem c3_reap_characterization_witness :
    (tryReapStaleDestroyGlobalLock
        { pid := 999999, alive := fun _ => false,
          ageNS := 0, waitNS := 600 * 1000000000 }).2.2 =
      [gs "remove owner file", gs "remove lock directory"] :=
  (c3_reap_characterization
      { pid := 999999, alive := fun _ => false,
        ageNS := 0, waitNS := 600 * 1000000000 }).2 (by decide)

end MsaSpec

namespace MsaSpec

/-! ## C2: clone copy-conflict retry planner -/

/-- The planner state reached after three ETA retries from a fresh planner
observing a job with a 120 s ETA. -/
def c2Job : Option VolumeCopyJobGo :=
  some { hasETA := true, eta := 120 * 1000000000 }

/-- C2 counterexample: starting from a fresh planner that observes an active
job advertising a 120 s ETA, the first three calls grant 125 s ETA-path
retries, but the fourth call reports exhaustion on the ETA path (`ok =
false`) with the no-ETA counter untouched — the planner never switches to
the no-ETA waiting ladder, so the conflict error surfaces after the ETA
budget alone, contradicting the claim. -/
theorem c2_no_fallback_counterexample :
    (cloneConflictRetryPlannerNext {} c2Job).2 =
        (125 * 1000000000, cloneRetryPathETA, true) ∧
      (cloneConflictRetryPlannerNext
          (cloneConflictRetryPlannerNext
            (cloneConflictRetryPlannerNext
              (cloneConflictRetryPlannerNext {} c2Job).1 c2Job).1 c2Job).1 c2Job) =
        ({ strategy := .eta, etaRetries := 3, noETARetries := 0,
           lastETA := 120 * 1000000000 }, 0, cloneRetryPathETA, false) := by
  constructor <;> rfl

/-- C2 (amended): once a planner on the ETA strategy has exhausted the ETA
retry budget (3), `next` refuses further retries on the ETA path immediately:
it returns `ok = false` with a zero wait and does not switch to the no-ETA
ladder or consume any no-ETA step.  The no-ETA ladder is used only by a
planner whose strategy is no-ETA, which steps through the fixed waits and
surfaces the error after its five steps are exhausted. -/
theorem c2_planner_exhaustion (p : CloneConflictRetryPlanner)
    (job : Option VolumeCopyJobGo) :
    (p.strategy = .eta → cloneCopyConflictETAMaxRetries ≤ p.etaRetries →
      (cloneConflictRetryPlannerNext p job).2 = (0, cloneRetryPathETA, false) ∧
        (cloneConflictRetryPlannerNext p job).1.strategy = .eta ∧
        (cloneConflictRetryPlannerNext p job).1.noETARetries = p.noETARetries ∧
        (cloneConflictRetryPlannerNext p job).1.etaRetries = p.etaRetries) ∧
      (p.strategy = .noETA →
        (cloneConflictRetryPlannerNext p job).2.2.1 = cloneRetryPathNoETA ∧
        ((cloneCopyConflictNoETAWaits.length : Int) ≤ p.noETARetries →
          (cloneConflictRetryPlannerNext p job).2 = (0, cloneRetryPathNoETA, false)) ∧
        (p.noETARetries < (cloneCopyConflictNoETAWaits.length : Int) →
          (cloneConflictRetryPlannerNext p job).2 =
            (cloneCopyConflictNoETAWaits.getD p.noETARetries.toNat 0,
              cloneRetryPathNoETA, true))) := by
  constructor
  · intro hs hexh
    cases job with
    | none =>
      simp [cloneConflictRetryPlannerNext, hs, hexh]
    | some j =>
      by_cases hj : j.hasETA = true
      · simp [cloneConflictRetryPlannerNext, hs, hj, hexh]
      · have hj2 : j.hasETA = false := by
          cases h : j.hasETA
          · rfl
          · exact absurd h hj
        simp [cloneConflictRetryPlannerNext, hs, hj2, hexh]
  · intro hs
    have hns : ¬(p.strategy = CloneConflictStrategy.unset) := by
      rw [hs]
      intro h
      cases h
    cases job with
    | none =>
      by_cases hlen : (cloneCopyConflictNoETAWaits.length : Int) ≤ p.noETARetries
      · simp [cloneConflictRetryPlannerNext, hns, hs, hlen]
      · refine ⟨?_, ?_, ?_⟩ <;>
          simp [cloneConflictRetryPlannerNext, hns, hs, hlen]
    | some j =>
      by_cases hj : j.hasETA = true
      · by_cases hlen : (cloneCopyConflictNoETAWaits.length : Int) ≤ p.noETARetries
        · simp [cloneConflictRetryPlannerNext, hns, hs, hj, hlen]
        · refine ⟨?_, ?_, ?_⟩ <;>
            simp [cloneConflictRetryPlannerNext, hns, hs, hj, hlen]
      · have hj2 : j.hasETA = false := by
          cases h : j.hasETA
          · rfl
          · exact absurd h hj
        by_cases hlen : (cloneCopyConflictNoETAWaits.length : Int) ≤ p.noETARetries
        · simp [cloneConflictRetryPlannerNext, hns, hs, hj2, hlen]
        · refine ⟨?_, ?_, ?_⟩ <;>
            simp [cloneConflictRetryPlannerNext, hns, hs, hj2, hlen]

/-- C2 amendment witness: an ETA-strategy planner with its budget exhausted
refuses immediately. -/
theorem c2_planner_exhaustion_witness :
    (cloneConflictRetryPlannerNext
        { strategy := .eta, etaRetries := 3 } c2Job).2 =
      (0, cloneRetryPathETA, false) :=
  ((c2_planner_exhaustion { strategy := .eta, etaRetries := 3 } c2Job).1
    rfl (by decide)).1

end MsaSpec

namespace MsaSpec

/-! ## C10: frame conditions of the state projections -/

/-- C10 (confirmed): `volumeStateFromModel` and `cloneStateFromModel`
overwrite the stored pool, vdisk, durable_id, serial_number, id and wwid
fields only when the array's volume record carries a non-empty value; every
field the array reports as empty leaves the corresponding stored state value
unchanged. -/
theorem c10_state_projection_frame (m : VolumeResourceModel)
    (c : CloneResourceModel) (v : VolumeGo) :
    ((v.poolName = [] → (volumeStateFromModel m v).pool = m.pool) ∧
      (v.poolName ≠ [] → (volumeStateFromModel m v).pool = .val v.poolName) ∧
      (v.vdiskName = [] → (volumeStateFromModel m v).vdisk = m.vdisk) ∧
      (v.vdiskName ≠ [] → (volumeStateFromModel m v).vdisk = .val v.vdiskName) ∧
      (v.durableID = [] → (volumeStateFromModel m v).durableID = m.durableID) ∧
      (v.durableID ≠ [] → (volumeStateFromModel m v).durableID = .val v.durableID) ∧
      (v.serialNumber = [] →
        (volumeStateFromModel m v).serialNumber = m.serialNumber ∧
          (volumeStateFromModel m v).id = m.id ∧
          (volumeStateFromModel m v).wwid = m.wwid) ∧
      (v.serialNumber ≠ [] →
        (volumeStateFromModel m v).serialNumber = .val v.serialNumber ∧
          (volumeStateFromModel m v).id = .val v.serialNumber ∧
          (volumeStateFromModel m v).wwid = .val v.serialNumber)) ∧
      ((v.poolName = [] → (cloneStateFromModel c v).pool = c.pool) ∧
        (v.poolName ≠ [] → (cloneStateFromModel c v).pool = .val v.poolName) ∧
        (v.vdiskName = [] → (cloneStateFromModel c v).vdisk = c.vdisk) ∧
        (v.vdiskName ≠ [] → (cloneStateFromModel c v).vdisk = .val v.vdiskName) ∧
        (v.durableID = [] → (cloneStateFromModel c v).durableID = c.durableID) ∧
        (v.durableID ≠ [] → (cloneStateFromModel c v).durableID = .val v.durableID) ∧
        (v.serialNumber = [] →
          (cloneStateFromModel c v).serialNumber = c.serialNumber ∧
            (cloneStateFromModel c v).id = c.id ∧
            (cloneStateFromModel c v).wwid = c.wwid) ∧
        (v.serialNumber ≠ [] →
          (cloneStateFromModel c v).serialNumber = .val v.serialNumber ∧
            (cloneStateFromModel c v).id = .val v.serialNumber ∧
            (cloneStateFromModel c v).wwid = .val v.serialNumber)) := by
  by_cases hp : v.poolName = [] <;>
    by_cases hv : v.vdiskName = [] <;>
      by_cases hd : v.durableID = [] <;>
        by_cases hs : v.serialNumber = [] <;>
          by_cases hw : v.wwn = [] <;>
            simp [volumeStateFromModel, cloneStateFromModel, hp, hv, hd, hs, hw]

/-- C10 witness: a volume reporting only a serial number updates serial, id
and wwid while leaving pool, vdisk and durable_id untouched. -/
theorem c10_state_projection_frame_witness :
    (volumeStateFromModel { pool := .val (gs "A") } { serialNumber := gs "SN1" }).pool =
        .val (gs "A") ∧
      (volumeStateFromModel { pool := .val (gs "A") } { serialNumber := gs "SN1" }).wwid =
        .val (gs "SN1") := by
  have h := c10_state_projection_frame { pool := .val (gs "A") } {}
    { serialNumber := gs "SN1" }
  exact ⟨h.1.1 rfl, (h.1.2.2.2.2.2.2.2 (by decide)).2.2⟩

end MsaSpec

namespace MsaSpec

/-! ## C7: mapping target spec and create command -/

/-- C7 (confirmed): `buildTargetSpec` is total on {host, host_group,
initiator} × non-empty trimmed names — yielding `name.*`, `name.*.*` and the
name unchanged respectively — and rejects every other target type and every
null/unknown/empty name; the `map volume` command of scenario 4 is assembled
in the order `map volume access a ports p lun n initiator spec volume` and
the stored id is `volume:targetSpec`. -/
theorem c7_build_target_spec (tt tn : TFStr) :
    (exceptOk (buildTargetSpec tt tn) = true ↔
      (∃ t n, tt = .val t ∧ tn = .val n ∧ goTrim n ≠ [] ∧
        (goTrim t = gs "host" ∨ goTrim t = gs "host_group" ∨
          goTrim t = gs "initiator"))) ∧
      (∀ t n, tt = .val t → tn = .val n → goTrim n ≠ [] →
        (goTrim t = gs "host" →
          buildTargetSpec tt tn = .ok (goTrim n ++ gs ".*")) ∧
        (goTrim t = gs "host_group" →
          buildTargetSpec tt tn = .ok (goTrim n ++ gs ".*.*")) ∧
        (goTrim t = gs "initiator" →
          buildTargetSpec tt tn = .ok (goTrim n))) ∧
      mappingCreatePlan
          { volumeName := .val (gs "vol01"), targetType := .val (gs "host"),
            targetName := .val (gs "Host1"), access := .val (gs "rw"),
            lun := .val (gs "10"), ports := .val [gs "a1", gs "b1"] } =
        .ok ([gs "map", gs "volume", gs "access", gs "read-write",
              gs "ports", gs "a1,b1", gs "lun", gs "10",
              gs "initiator", gs "Host1.*", gs "vol01"],
             gs "vol01:Host1.*") := by
  refine ⟨?_, ?_, by rfl⟩
  · cases tt with
    | unknown => simp [buildTargetSpec, tfIsUnknown, tfIsNull, exceptOk]
    | null => simp [buildTargetSpec, tfIsUnknown, tfIsNull, exceptOk]
    | val t =>
      cases tn with
      | unknown => simp [buildTargetSpec, tfIsUnknown, tfIsNull, exceptOk]
      | null => simp [buildTargetSpec, tfIsUnknown, tfIsNull, exceptOk]
      | val n =>
        by_cases hn : goTrim n = []
        · simp [buildTargetSpec, tfIsUnknown, tfIsNull, tfStrValue, exceptOk, hn]
        · by_cases h1 : goTrim t = gs "host"
          · simp [buildTargetSpec, tfIsUnknown, tfIsNull, tfStrValue, exceptOk, hn, h1]
          · by_cases h2 : goTrim t = gs "host_group"
            · simp only [buildTargetSpec, tfIsUnknown, tfIsNull, tfStrValue]
              rw [if_neg (by simp), if_neg (by simp [hn]), h2, if_neg (by decide),
                if_pos rfl]
              simp [exceptOk, hn, h2]
            · by_cases h3 : goTrim t = gs "initiator"
              · simp only [buildTargetSpec, tfIsUnknown, tfIsNull, tfStrValue]
                rw [if_neg (by simp), if_neg (by simp [hn]), h3, if_neg (by decide),
                  if_neg (by decide), if_pos rfl]
                simp [exceptOk, hn, h3]
              · simp only [buildTargetSpec, tfIsUnknown, tfIsNull, tfStrValue]
                rw [if_neg (by simp), if_neg (by simp [hn]), if_neg h1, if_neg h2,
                  if_neg h3]
                simp [exceptOk, hn, h1, h2, h3]
  · intro t n htt htn hn
    subst htt
    subst htn
    refine ⟨?_, ?_, ?_⟩
    · intro ht
      simp only [buildTargetSpec, tfIsUnknown, tfIsNull, tfStrValue]
      rw [if_neg (by simp), if_neg (by simp [hn]), ht, if_pos rfl]
    · intro ht
      simp only [buildTargetSpec, tfIsUnknown, tfIsNull, tfStrValue]
      rw [if_neg (by simp), if_neg (by simp [hn]), ht, if_neg (by decide),
        if_pos rfl]
    · intro ht
      simp only [buildTargetSpec, tfIsUnknown, tfIsNull, tfStrValue]
      rw [if_neg (by simp), if_neg (by simp [hn]), ht, if_neg (by decide),
        if_neg (by decide), if_pos rfl]

/-- C7 witness: the host target type with name `Host1` produces `Host1.*`. -/
theorem c7_build_target_spec_witness :
    buildTargetSpec (.val (gs "host")) (.val (gs "Host1")) =
      .ok (goTrim (gs "Host1") ++ gs ".*") :=
  ((c7_build_target_spec (.val (gs "host")) (.val (gs "Host1"))).2.1
      (gs "host") (gs "Host1") rfl rfl (by decide)).1 (by decide)

end MsaSpec

namespace MsaSpec

/-! ## C8: lemmas about normalizedNameMap and the membership diff -/

theorem goLower_eq_nil_iff (s : Str) : goLower s = [] ↔ s = [] := by
  simp [goLower]

theorem normalizeName_ne_nil {x : Str} (h : goTrim x ≠ []) : normalizeName x ≠ [] := by
  intro hn
  exact h ((goLower_eq_nil_iff (goTrim x)).mp hn)

theorem normalizeName_goTrim (x : Str) : normalizeName (goTrim x) = normalizeName x := by
  unfold normalizeName
  rw [goTrim_idem]

theorem nnmAux_mem_shape (l : List Str) :
    ∀ acc (p : Str × Str), p ∈ normalizedNameMapAux l acc →
      p ∈ acc ∨ (goTrim p.2 = p.2 ∧ p.2 ≠ [] ∧ p.1 = normalizeName p.2 ∧
        ∃ x ∈ l, goTrim x = p.2) := by
  induction l with
  | nil =>
    intro acc p hp
    simp only [normalizedNameMapAux, List.mem_reverse] at hp
    exact Or.inl hp
  | cons v vs ih =>
    intro acc p hp
    simp only [normalizedNameMapAux] at hp
    by_cases h1 : goTrim v = []
    · rw [if_pos h1] at hp
      rcases ih acc p hp with h | ⟨ha, hb, hc, x, hx, hxe⟩
      · exact Or.inl h
      · exact Or.inr ⟨ha, hb, hc, x, List.mem_cons_of_mem v hx, hxe⟩
    · rw [if_neg h1] at hp
      by_cases h2 : normalizeName (goTrim v) = []
      · exact absurd (normalizeName_goTrim v ▸ h2) (normalizeName_ne_nil h1)
      · rw [if_neg h2] at hp
        by_cases h3 : acc.any (fun q => q.1 = normalizeName (goTrim v)) = true
        · rw [if_pos h3] at hp
          rcases ih acc p hp with h | ⟨ha, hb, hc, x, hx, hxe⟩
          · exact Or.inl h
          · exact Or.inr ⟨ha, hb, hc, x, List.mem_cons_of_mem v hx, hxe⟩
        · rw [if_neg h3] at hp
          rcases ih _ p hp with h | ⟨ha, hb, hc, x, hx, hxe⟩
          · rcases List.mem_cons.mp h with h | h
            · subst h
              exact Or.inr ⟨goTrim_idem v, h1, rfl, v, List.mem_cons_self v vs, rfl⟩
            · exact Or.inl h
          · exact Or.inr ⟨ha, hb, hc, x, List.mem_cons_of_mem v hx, hxe⟩

theorem nnmAux_mem_key (l : List Str) :
    ∀ acc (k : Str), k ∈ (normalizedNameMapAux l acc).map Prod.fst ↔
      (k ∈ acc.map Prod.fst ∨ ∃ x ∈ l, goTrim x ≠ [] ∧ normalizeName x = k) := by
  induction l with
  | nil =>
    intro acc k
    simp [normalizedNameMapAux]
  | cons v vs ih =>
    intro acc k
    simp only [normalizedNameMapAux]
    by_cases h1 : goTrim v = []
    · rw [if_pos h1, ih]
      constructor
      · rintro (h | ⟨x, hx, hne, hnk⟩)
        · exact Or.inl h
        · exact Or.inr ⟨x, List.mem_cons_of_mem v hx, hne, hnk⟩
      · rintro (h | ⟨x, hx, hne, hnk⟩)
        · exact Or.inl h
        · rcases List.mem_cons.mp hx with rfl | hx
          · exact absurd h1 hne
          · exact Or.inr ⟨x, hx, hne, hnk⟩
    · rw [if_neg h1]
      by_cases h2 : normalizeName (goTrim v) = []
      · exact absurd (normalizeName_goTrim v ▸ h2) (normalizeName_ne_nil h1)
      · rw [if_neg h2]
        by_cases h3 : acc.any (fun q => q.1 = normalizeName (goTrim v)) = true
        · rw [if_pos h3, ih]
          have hkacc : normalizeName v ∈ acc.map Prod.fst := by
            rw [List.any_eq_true] at h3
            obtain ⟨q, hq, hqe⟩ := h3
            rw [decide_eq_true_eq] at hqe
            rw [← normalizeName_goTrim v]
            exact List.mem_map.mpr ⟨q, hq, hqe⟩
          constructor
          · rintro (h | ⟨x, hx, hne, hnk⟩)
            · exact Or.inl h
            · exact Or.inr ⟨x, List.mem_cons_of_mem v hx, hne, hnk⟩
          · rintro (h | ⟨x, hx, hne, hnk⟩)
            · exact Or.inl h
            · rcases List.mem_cons.mp hx with rfl | hx
              · exact Or.inl (hnk ▸ hkacc)
              · exact Or.inr ⟨x, hx, hne, hnk⟩
        · rw [if_neg h3, ih]
          constructor
          · rintro (h | ⟨x, hx, hne, hnk⟩)
            · rw [List.map_cons] at h
              rcases List.mem_cons.mp h with h | h
              · refine Or.inr ⟨v, List.mem_cons_self v vs, h1, ?_⟩
                rw [← normalizeName_goTrim v]
                exact h.symm
              · exact Or.inl h
            · exact Or.inr ⟨x, List.mem_cons_of_mem v hx, hne, hnk⟩
          · rintro (h | ⟨x, hx, hne, hnk⟩)
            · exact Or.inl (by
                rw [List.map_cons]
                exact List.mem_cons_of_mem _ h)
            · rcases List.mem_cons.mp hx with rfl | hx
              · refine Or.inl (by
                  rw [List.map_cons]
                  refine List.mem_cons.mpr (Or.inl ?_)
                  rw [← hnk, ← normalizeName_goTrim x])
              · exact Or.inr ⟨x, hx, hne, hnk⟩

theorem nnmAux_nodup (l : List Str) :
    ∀ acc, (acc.map Prod.fst).Nodup →
      ((normalizedNameMapAux l acc).map Prod.fst).Nodup := by
  induction l with
  | nil =>
    intro acc h
    simpa [normalizedNameMapAux, List.map_reverse] using h
  | cons v vs ih =>
    intro acc h
    simp only [normalizedNameMapAux]
    by_cases h1 : goTrim v = []
    · rw [if_pos h1]
      exact ih acc h
    · rw [if_neg h1]
      by_cases h2 : normalizeName (goTrim v) = []
      · exact absurd (normalizeName_goTrim v ▸ h2) (normalizeName_ne_nil h1)
      · rw [if_neg h2]
        by_cases h3 : acc.any (fun q => q.1 = normalizeName (goTrim v)) = true
        · rw [if_pos h3]
          exact ih acc h
        · rw [if_neg h3]
          refine ih _ ?_
          simp only [List.map_cons, List.nodup_cons]
          refine ⟨?_, h⟩
          intro hmem
          apply h3
          rw [List.any_eq_true]
          obtain ⟨q, hq, hqe⟩ := List.mem_map.mp hmem
          exact ⟨q, hq, by simp [hqe]⟩

theorem nnm_mem_key (l : List Str) (k : Str) :
    k ∈ (normalizedNameMap l).map Prod.fst ↔
      ∃ x ∈ l, goTrim x ≠ [] ∧ normalizeName x = k := by
  rw [normalizedNameMap, nnmAux_mem_key]
  simp

theorem nnm_mem_shape (l : List Str) (p : Str × Str)
    (hp : p ∈ normalizedNameMap l) :
    goTrim p.2 = p.2 ∧ p.2 ≠ [] ∧ p.1 = normalizeName p.2 ∧ ∃ x ∈ l, goTrim x = p.2 := by
  rcases nnmAux_mem_shape l [] p hp with h | h
  · simp at h
  · exact h

theorem nnm_nodup (l : List Str) : ((normalizedNameMap l).map Prod.fst).Nodup :=
  nnmAux_nodup l [] (by simp)

end MsaSpec

namespace MsaSpec

/-- Membership in the add list of the diff. -/
theorem diff_add_mem (desired actual : List Str) (y : Str) :
    y ∈ (diffHostGroupMembers desired actual).1 ↔
      ∃ p, p ∈ normalizedNameMap desired ∧
        ((normalizedNameMap actual).any (fun q => q.1 = p.1)) = false ∧ p.2 = y := by
  constructor
  · intro hy
    obtain ⟨p, hp, hpy⟩ := List.mem_map.mp hy
    have h := List.mem_filter.mp hp
    refine ⟨p, h.1, ?_, hpy⟩
    have h2 := h.2
    rwa [Bool.not_eq_true'] at h2
  · rintro ⟨p, hp, hfalse, hpy⟩
    exact List.mem_map.mpr ⟨p, List.mem_filter.mpr ⟨hp, by rw [hfalse]; rfl⟩, hpy⟩

/-- Membership in the remove list of the diff. -/
theorem diff_remove_mem (desired actual : List Str) (y : Str) :
    y ∈ (diffHostGroupMembers desired actual).2 ↔
      ∃ p, p ∈ normalizedNameMap actual ∧
        ((normalizedNameMap desired).any (fun q => q.1 = p.1)) = false ∧ p.2 = y := by
  constructor
  · intro hy
    obtain ⟨p, hp, hpy⟩ := List.mem_map.mp hy
    have h := List.mem_filter.mp hp
    refine ⟨p, h.1, ?_, hpy⟩
    have h2 := h.2
    rwa [Bool.not_eq_true'] at h2
  · rintro ⟨p, hp, hfalse, hpy⟩
    exact List.mem_map.mpr ⟨p, List.mem_filter.mpr ⟨hp, by rw [hfalse]; rfl⟩, hpy⟩

theorem any_key_eq_false_not_mem (l : List (Str × Str)) (k : Str)
    (h : (l.any (fun q => q.1 = k)) = false) : k ∉ l.map Prod.fst := by
  intro hmem
  obtain ⟨q, hq, hqk⟩ := List.mem_map.mp hmem
  have : l.any (fun q => q.1 = k) = true := List.any_eq_true.mpr ⟨q, hq, by simp [hqk]⟩
  rw [h] at this
  cases this

theorem not_mem_any_key_eq_false (l : List (Str × Str)) (k : Str)
    (h : k ∉ l.map Prod.fst) : (l.any (fun q => q.1 = k)) = false := by
  cases hb : l.any (fun q => q.1 = k)
  · rfl
  · exfalso
    obtain ⟨q, hq, hqe⟩ := List.any_eq_true.mp hb
    rw [decide_eq_true_eq] at hqe
    exact h (List.mem_map.mpr ⟨q, hq, hqe⟩)

/-- The facts carried by every member of the add list. -/
theorem diff_add_facts (desired actual : List Str) (y : Str)
    (hy : y ∈ (diffHostGroupMembers desired actual).1) :
    goTrim y = y ∧ y ≠ [] ∧
      normalizeName y ∈ (normalizedNameMap desired).map Prod.fst ∧
      normalizeName y ∉ (normalizedNameMap actual).map Prod.fst := by
  obtain ⟨p, hp, hfalse, hpy⟩ := (diff_add_mem desired actual y).mp hy
  obtain ⟨ht, hne, hk, _⟩ := nnm_mem_shape desired p hp
  subst hpy
  refine ⟨ht, hne, ?_, ?_⟩
  · rw [← hk]
    exact List.mem_map.mpr ⟨p, hp, rfl⟩
  · rw [← hk]
    exact any_key_eq_false_not_mem _ _ hfalse

/-- The facts carried by every member of the remove list. -/
theorem diff_remove_facts (desired actual : List Str) (y : Str)
    (hy : y ∈ (diffHostGroupMembers desired actual).2) :
    goTrim y = y ∧ y ≠ [] ∧
      normalizeName y ∈ (normalizedNameMap actual).map Prod.fst ∧
      normalizeName y ∉ (normalizedNameMap desired).map Prod.fst := by
  obtain ⟨p, hp, hfalse, hpy⟩ := (diff_remove_mem desired actual y).mp hy
  obtain ⟨ht, hne, hk, _⟩ := nnm_mem_shape actual p hp
  subst hpy
  refine ⟨ht, hne, ?_, ?_⟩
  · rw [← hk]
    exact List.mem_map.mpr ⟨p, hp, rfl⟩
  · rw [← hk]
    exact any_key_eq_false_not_mem _ _ hfalse

/-! ## C8: the host-group membership diff is a correct set diff -/

/-- C8 (confirmed): writing `key x` for the case-folded trimmed name
`normalizeName x` and treating lists as sets of such keys (empty names carry
no key), `diffHostGroupMembers desired actual = (add, remove)` satisfies:
`(actual ∖ remove) ∪ add = desired` on keys; `add` is disjoint from `actual`
and `remove` from `desired` (case-insensitively); both outputs are
de-duplicated (their key lists are nodup) and hold trimmed non-empty names. -/
theorem c8_diff_host_group_members (desired actual : List Str) :
    (∀ k : Str,
      (((∃ x ∈ actual, goTrim x ≠ [] ∧ normalizeName x = k) ∧
          ¬∃ y ∈ (diffHostGroupMembers desired actual).2, normalizeName y = k) ∨
        (∃ y ∈ (diffHostGroupMembers desired actual).1, normalizeName y = k)) ↔
        (∃ x ∈ desired, goTrim x ≠ [] ∧ normalizeName x = k)) ∧
      (∀ y ∈ (diffHostGroupMembers desired actual).1, ∀ x ∈ actual,
        normalizeName y ≠ normalizeName x) ∧
      (∀ y ∈ (diffHostGroupMembers desired actual).2, ∀ x ∈ desired,
        normalizeName y ≠ normalizeName x) ∧
      ((diffHostGroupMembers desired actual).1.map normalizeName).Nodup ∧
      ((diffHostGroupMembers desired actual).2.map normalizeName).Nodup ∧
      (∀ y ∈ (diffHostGroupMembers desired actual).1, goTrim y = y ∧ y ≠ []) ∧
      (∀ y ∈ (diffHostGroupMembers desired actual).2, goTrim y = y ∧ y ≠ []) := by
  refine ⟨?_, ?_, ?_, ?_, ?_, ?_, ?_⟩
  · intro k
    by_cases hkd : k ∈ (normalizedNameMap desired).map Prod.fst
    · have hrhs := (nnm_mem_key desired k).mp hkd
      constructor
      · intro _
        exact hrhs
      · intro _
        by_cases hka : k ∈ (normalizedNameMap actual).map Prod.fst
        · left
          refine ⟨(nnm_mem_key actual k).mp hka, ?_⟩
          rintro ⟨y, hy, hyk⟩
          obtain ⟨_, _, _, hnotin⟩ := diff_remove_facts desired actual y hy
          rw [hyk] at hnotin
          exact hnotin hkd
        · right
          obtain ⟨p, hp, hpk⟩ := List.mem_map.mp hkd
          obtain ⟨_, _, hkk, _⟩ := nnm_mem_shape desired p hp
          refine ⟨p.2, ?_, ?_⟩
          · apply (diff_add_mem desired actual p.2).mpr
            refine ⟨p, hp, ?_, rfl⟩
            apply not_mem_any_key_eq_false
            rw [hpk]
            exact hka
          · rw [← hkk, hpk]
    · have hrhsf : ¬∃ x ∈ desired, goTrim x ≠ [] ∧ normalizeName x = k := by
        intro h
        exact hkd ((nnm_mem_key desired k).mpr h)
      constructor
      · rintro (⟨hin, hnorem⟩ | ⟨y, hy, hyk⟩)
        · exfalso
          have hka : k ∈ (normalizedNameMap actual).map Prod.fst :=
            (nnm_mem_key actual k).mpr hin
          obtain ⟨p, hp, hpk⟩ := List.mem_map.mp hka
          obtain ⟨_, _, hkk, _⟩ := nnm_mem_shape actual p hp
          apply hnorem
          refine ⟨p.2, ?_, ?_⟩
          · apply (diff_remove_mem desired actual p.2).mpr
            refine ⟨p, hp, ?_, rfl⟩
            apply not_mem_any_key_eq_false
            rw [hpk]
            exact hkd
          · rw [← hkk, hpk]
        · exfalso
          obtain ⟨_, _, hkin, _⟩ := diff_add_facts desired actual y hy
          rw [hyk] at hkin
          exact hkd hkin
      · intro h
        exact absurd h hrhsf
  · intro y hy x hx heq
    obtain ⟨ht, hne, _, hnotin⟩ := diff_add_facts desired actual y hy
    apply hnotin
    have hyne : normalizeName y ≠ [] := by
      apply normalizeName_ne_nil
      rw [ht]
      exact hne
    have hxt : goTrim x ≠ [] := by
      intro hx0
      apply hyne
      rw [heq]
      unfold normalizeName
      rw [hx0]
      rfl
    exact (nnm_mem_key actual (normalizeName y)).mpr ⟨x, hx, hxt, heq.symm⟩
  · intro y hy x hx heq
    obtain ⟨ht, hne, _, hnotin⟩ := diff_remove_facts desired actual y hy
    apply hnotin
    have hyne : normalizeName y ≠ [] := by
      apply normalizeName_ne_nil
      rw [ht]
      exact hne
    have hxt : goTrim x ≠ [] := by
      intro hx0
      apply hyne
      rw [heq]
      unfold normalizeName
      rw [hx0]
      rfl
    exact (nnm_mem_key desired (normalizeName y)).mpr ⟨x, hx, hxt, heq.symm⟩
  · have hmapeq : (diffHostGroupMembers desired actual).1.map normalizeName =
        ((normalizedNameMap desired).filter
          (fun p => !((normalizedNameMap actual).any (fun q => q.1 = p.1)))).map Prod.fst := by
      show (List.map Prod.snd _).map normalizeName = _
      rw [List.map_map]
      apply List.map_congr_left
      intro p hp
      have hpd := (List.mem_filter.mp hp).1
      obtain ⟨_, _, hkk, _⟩ := nnm_mem_shape desired p hpd
      exact (congrArg id hkk).symm
    rw [hmapeq]
    exact List.Nodup.sublist ((List.filter_sublist _).map Prod.fst) (nnm_nodup desired)
  · have hmapeq : (diffHostGroupMembers desired actual).2.map normalizeName =
        ((normalizedNameMap actual).filter
          (fun p => !((normalizedNameMap desired).any (fun q => q.1 = p.1)))).map Prod.fst := by
      show (List.map Prod.snd _).map normalizeName = _
      rw [List.map_map]
      apply List.map_congr_left
      intro p hp
      have hpd := (List.mem_filter.mp hp).1
      obtain ⟨_, _, hkk, _⟩ := nnm_mem_shape actual p hpd
      exact (congrArg id hkk).symm
    rw [hmapeq]
    exact List.Nodup.sublist ((List.filter_sublist _).map Prod.fst) (nnm_nodup actual)
  · intro y hy
    obtain ⟨ht, hne, _, _⟩ := diff_add_facts desired actual y hy
    exact ⟨ht, hne⟩
  · intro y hy
    obtain ⟨ht, hne, _, _⟩ := diff_remove_facts desired actual y hy
    exact ⟨ht, hne⟩

/-- C8 witness: the diff of desired `[HostA, HostC]` against actual
`[HostA, HostB]` adds `HostC`, and `HostC` clashes with no actual member. -/
theorem c8_diff_host_group_members_witness :
    diffHostGroupMembers [gs "HostA", gs "HostC"] [gs "HostA", gs "HostB"] =
        ([gs "HostC"], [gs "HostB"]) ∧
      (∀ y ∈ (diffHostGroupMembers [gs "HostA", gs "HostC"]
          [gs "HostA", gs "HostB"]).1,
        ∀ x ∈ [gs "HostA", gs "HostB"], normalizeName y ≠ normalizeName x) :=
  ⟨by decide,
    (c8_diff_host_group_members [gs "HostA", gs "HostC"] [gs "HostA", gs "HostB"]).2.1⟩

end MsaSpec

namespace MsaSpec

/-! ## C5: lemmas about digit strings -/

theorem digit_toLower (c : Char) (h : isDigitB c = true) : c.toLower = c := by
  simp [isDigitB] at h
  have h2 : c.toNat ≤ 57 := by
    have h3 : c ≤ '9' := h.2
    simp only [Char.le_def] at h3
    exact h3
  unfold Char.toLower
  rw [if_neg]
  omega

theorem digit_toNat_ge (c : Char) (h : isDigitB c = true) : 48 ≤ c.toNat := by
  simp [isDigitB] at h
  have h3 : '0' ≤ c := h.1
  simp only [Char.le_def] at h3
  exact h3

theorem digit_toNat_le (c : Char) (h : isDigitB c = true) : c.toNat ≤ 57 := by
  simp [isDigitB] at h
  have h3 : c ≤ '9' := h.2
  simp only [Char.le_def] at h3
  exact h3

theorem digit_ne_of_toNat {c d : Char} (h : isDigitB c = true)
    (hd : d.toNat < 48 ∨ 57 < d.toNat) : c ≠ d := by
  intro he
  subst he
  have h1 := digit_toNat_ge c h
  have h2 := digit_toNat_le c h
  omega

theorem digit_not_space (c : Char) (h : isDigitB c = true) : goIsSpace c = false := by
  have e1 : c ≠ ' ' := digit_ne_of_toNat h (by decide)
  have e2 : c ≠ '\t' := digit_ne_of_toNat h (by decide)
  have e3 : c ≠ '\n' := digit_ne_of_toNat h (by decide)
  have e4 : c ≠ '\x0b' := digit_ne_of_toNat h (by decide)
  have e5 : c ≠ '\x0c' := digit_ne_of_toNat h (by decide)
  have e6 : c ≠ '\r' := digit_ne_of_toNat h (by decide)
  simp [goIsSpace, e1, e2, e3, e4, e5, e6]

theorem dropWhile_eq_self_of_forall {p : Char → Bool} {s : Str}
    (h : ∀ c ∈ s, p c = false) : s.dropWhile p = s := by
  cases s with
  | nil => rfl
  | cons c t =>
    rw [List.dropWhile_cons, if_neg]
    rw [h c (List.mem_cons_self c t)]
    simp

theorem goTrim_eq_self_of_forall {s : Str} (h : ∀ c ∈ s, goIsSpace c = false) :
    goTrim s = s := by
  unfold goTrim
  rw [dropWhile_eq_self_of_forall h]
  rw [dropWhile_eq_self_of_forall (fun c hc => h c (List.mem_reverse.mp hc))]
  exact List.reverse_reverse s

theorem goLower_eq_self_of_digits {s : Str} (h : ∀ c ∈ s, isDigitB c = true) :
    goLower s = s := by
  unfold goLower
  rw [List.map_congr_left (fun c hc => digit_toLower c (h c hc))]
  exact List.map_id s

theorem goSplitChar_no_sep {sep : Char} {s : Str} (h : ∀ c ∈ s, c ≠ sep) :
    goSplitChar sep s = [s] := by
  induction s with
  | nil => rfl
  | cons c t ih =>
    simp only [goSplitChar]
    rw [if_neg (by simpa using h c (List.mem_cons_self c t))]
    rw [ih (fun x hx => h x (List.mem_cons_of_mem c hx))]

theorem digitsToNat_nonneg (s : Str) (acc : Nat) : acc ≤ digitsToNat s acc := by
  induction s generalizing acc with
  | nil => exact Nat.le_refl acc
  | cons c t ih =>
    calc acc ≤ acc * 10 + digitVal c := by omega
    _ ≤ digitsToNat t (acc * 10 + digitVal c) := ih _
    _ = digitsToNat (c :: t) acc := rfl

theorem goAtoi64_digits {s : Str} (hne : s ≠ [])
    (hdig : ∀ c ∈ s, isDigitB c = true)
    (hle : (digitsToNat s 0 : Int) ≤ 2 ^ 63 - 1) :
    goAtoi64 s = some (digitsToNat s 0 : Int) := by
  cases s with
  | nil => exact absurd rfl hne
  | cons c t =>
    have hc := hdig c (List.mem_cons_self c t)
    have hcm : c ≠ '-' := digit_ne_of_toNat hc (by decide)
    have hcp : c ≠ '+' := digit_ne_of_toNat hc (by decide)
    have hall : (c :: t).all isDigitB = true :=
      List.all_eq_true.mpr (fun x hx => hdig x hx)
    have hle2 : digitsToNat (c :: t) 0 ≤ 9223372036854775807 := by
      have h9 : ((9223372036854775807 : Nat) : Int) = 2 ^ 63 - 1 := by norm_num
      have := hle
      rw [← h9] at this
      exact_mod_cast this
    simp only [goAtoi64]
    rw [if_neg hcm, if_neg hcp]
    simp [hall, hle2]

theorem goAtoi64_neg_digits {s : Str} (hne : s ≠ [])
    (hdig : ∀ c ∈ s, isDigitB c = true)
    (hle : (digitsToNat s 0 : Int) ≤ 2 ^ 63) :
    goAtoi64 ('-' :: s) = some (-(digitsToNat s 0 : Int)) := by
  have hall : s.all isDigitB = true := List.all_eq_true.mpr (fun x hx => hdig x hx)
  have hle2 : digitsToNat s 0 ≤ 9223372036854775808 := by
    have h9 : ((9223372036854775808 : Nat) : Int) = 2 ^ 63 := by norm_num
    have := hle
    rw [← h9] at this
    exact_mod_cast this
  simp only [goAtoi64]
  simp [hne, hall, hle2]

theorem wrap64_eq_self {x : Int} (h1 : -(2 ^ 63) ≤ x) (h2 : x < 2 ^ 63) :
    wrap64 x = x := by
  unfold wrap64
  rw [Int.emod_eq_of_lt (by omega) (by omega)]
  omega

end MsaSpec

namespace MsaSpec

theorem contains_eq_false_of_not_mem {l : List Str} {a : Str} (h : a ∉ l) :
    l.contains a = false := by
  simpa using h

theorem parseColonDuration_single {v : Str}
    (h : goSplitChar ':' (goTrim v) = [goTrim v]) :
    parseColonDuration v = none := by
  unfold parseColonDuration
  rw [h]
  by_cases hany :
      ([goTrim v].map (fun part => goAtoi64 (goTrim part))).any
        (fun c => c.isNone || decide (c.getD 0 < 0)) = true
  · rw [if_pos hany]
  · rw [if_neg hany]
    simp only [List.map]
    cases goAtoi64 (goTrim (goTrim v)) <;> rfl

theorem digits_not_placeholder {s : Str} (hne : s ≠ [])
    (hdig : ∀ c ∈ s, isDigitB c = true) :
    etaPlaceholders.contains s = false := by
  cases s with
  | nil => exact absurd rfl hne
  | cons c t =>
    have hc := hdig c (List.mem_cons_self c t)
    apply contains_eq_false_of_not_mem
    intro hmem
    simp only [etaPlaceholders, gs, List.mem_cons, List.not_mem_nil, or_false] at hmem
    rcases hmem with h | h | h | h | h | h
    · exact absurd ((List.cons.injEq _ _ _ _).mp h).1 (digit_ne_of_toNat hc (by decide))
    · exact absurd ((List.cons.injEq _ _ _ _).mp h).1 (digit_ne_of_toNat hc (by decide))
    · exact absurd ((List.cons.injEq _ _ _ _).mp h).1 (digit_ne_of_toNat hc (by decide))
    · exact absurd ((List.cons.injEq _ _ _ _).mp h).1 (digit_ne_of_toNat hc (by decide))
    · exact absurd ((List.cons.injEq _ _ _ _).mp h).1 (digit_ne_of_toNat hc (by decide))
    · exact absurd ((List.cons.injEq _ _ _ _).mp h).1 (digit_ne_of_toNat hc (by decide))

theorem neg_digits_not_placeholder {s : Str} (hne : s ≠ [])
    (hdig : ∀ c ∈ s, isDigitB c = true) :
    etaPlaceholders.contains ('-' :: s) = false := by
  apply contains_eq_false_of_not_mem
  intro hmem
  simp only [etaPlaceholders, gs, List.mem_cons, List.not_mem_nil, or_false] at hmem
  rcases hmem with h | h | h | h | h | h
  · exact absurd ((List.cons.injEq _ _ _ _).mp h).1 (by decide)
  · exact absurd ((List.cons.injEq _ _ _ _).mp h).1 (by decide)
  · exact absurd ((List.cons.injEq _ _ _ _).mp h).1 (by decide)
  · exact absurd ((List.cons.injEq _ _ _ _).mp h).1 (by decide)
  · exact absurd ((List.cons.injEq _ _ _ _).mp h).2 hne
  · have ht : s = ['-'] := ((List.cons.injEq _ _ _ _).mp h).2
    have hd := hdig '-' (by rw [ht]; exact List.mem_cons_self _ _)
    exact absurd hd (by decide)

end MsaSpec

namespace MsaSpec

/-! ## C5: ETA parsing -/

/-- C5 counterexample: the negative duration string `-5s` is accepted by
`parseVolumeCopyETA` with a negative ETA of −5 s, although the claim says
every negative input is rejected. -/
theorem c5_negative_duration_counterexample :
    parseVolumeCopyETA (gs "-5s") = (-5000000000, true) ∧
      (-5000000000 : Int) < 0 := by
  constructor
  · rfl
  · norm_num

/-- C5 (amended): `parseVolumeCopyETA` accepts seconds-as-integer (any digit
string whose value in nanoseconds fits int64), `HH:MM:SS` and `MM:SS` colon
forms, Go duration strings like `2m 30s` and human forms like
`3 minutes 5 seconds`; it rejects the textual placeholders and every negative
*integer* input.  (Negative Go-duration strings such as `-5s` slip through
the `time.ParseDuration` branch, which has no sign check — see the
counterexample.) -/
theorem c5_eta_parsing :
    (parseVolumeCopyETA (gs "N/A") = (0, false) ∧
      parseVolumeCopyETA (gs "-") = (0, false) ∧
      parseVolumeCopyETA (gs "unknown") = (0, false)) ∧
      (∀ s : Str, s ≠ [] → (∀ c ∈ s, isDigitB c = true) →
        (digitsToNat s 0 : Int) * nsPerSecond ≤ 2 ^ 63 - 1 →
        parseVolumeCopyETA s = ((digitsToNat s 0 : Int) * nsPerSecond, true)) ∧
      (∀ s : Str, s ≠ [] → (∀ c ∈ s, isDigitB c = true) →
        1 ≤ digitsToNat s 0 → (digitsToNat s 0 : Int) ≤ 2 ^ 63 →
        parseVolumeCopyETA ('-' :: s) = (0, false)) ∧
      (parseVolumeCopyETA (gs "00:01:30") = (90 * nsPerSecond, true) ∧
        parseVolumeCopyETA (gs "1:30") = (90 * nsPerSecond, true) ∧
        parseVolumeCopyETA (gs "2m 30s") = (150 * nsPerSecond, true) ∧
        parseVolumeCopyETA (gs "3 minutes 5 seconds") = (185 * nsPerSecond, true)) := by
  refine ⟨⟨by rfl, by rfl, by rfl⟩, ?_, ?_, ⟨by rfl, by rfl, by rfl, by rfl⟩⟩
  · intro s hne hdig hbound
    have hnneg : (0 : Int) ≤ (digitsToNat s 0 : Int) := Int.natCast_nonneg _
    have hle1 : (digitsToNat s 0 : Int) ≤ 2 ^ 63 - 1 := by
      unfold nsPerSecond at hbound
      omega
    have htrimmed : goTrim s = s :=
      goTrim_eq_self_of_forall (fun c hc => digit_not_space c (hdig c hc))
    have hlow : goLower s = s := goLower_eq_self_of_digits hdig
    have hsplit : goSplitChar ':' s = [s] :=
      goSplitChar_no_sep (fun c hc => digit_ne_of_toNat (hdig c hc) (by decide))
    have hcolon : parseColonDuration s = none := by
      apply parseColonDuration_single
      rw [htrimmed]
      exact hsplit
    have hatoi := goAtoi64_digits hne hdig hle1
    have hwrap : wrap64 ((digitsToNat s 0 : Int) * nsPerSecond) =
        (digitsToNat s 0 : Int) * nsPerSecond := by
      apply wrap64_eq_self
      · unfold nsPerSecond
        omega
      · unfold nsPerSecond at hbound ⊢
        omega
    simp only [parseVolumeCopyETA]
    rw [htrimmed]
    rw [if_neg hne, hlow]
    rw [digits_not_placeholder hne hdig]
    simp only [Bool.false_eq_true, if_false]
    simp only [hcolon, hatoi]
    rw [if_neg (by omega), hwrap]
  · intro s hne hdig hpos hle
    have hne2 : ('-' :: s : Str) ≠ [] := by simp
    have htrimmed : goTrim ('-' :: s) = '-' :: s := by
      apply goTrim_eq_self_of_forall
      intro c hc
      rcases List.mem_cons.mp hc with rfl | hc
      · decide
      · exact digit_not_space c (hdig c hc)
    have hlow : goLower ('-' :: s) = '-' :: s := by
      show Char.toLower '-' :: goLower s = '-' :: s
      rw [goLower_eq_self_of_digits hdig]
      rw [show Char.toLower '-' = '-' from by decide]
    have hsplit : goSplitChar ':' ('-' :: s) = ['-' :: s] := by
      apply goSplitChar_no_sep
      intro c hc
      rcases List.mem_cons.mp hc with rfl | hc
      · decide
      · exact digit_ne_of_toNat (hdig c hc) (by decide)
    have hcolon : parseColonDuration ('-' :: s) = none := by
      apply parseColonDuration_single
      rw [htrimmed]
      exact hsplit
    have hatoi := goAtoi64_neg_digits hne hdig hle
    simp only [parseVolumeCopyETA]
    rw [htrimmed]
    rw [if_neg hne2, hlow]
    rw [neg_digits_not_placeholder hne hdig]
    simp only [Bool.false_eq_true, if_false]
    simp only [hcolon, hatoi]
    rw [if_pos (by omega)]

/-- C5 amendment witness: the integer `120` parses as 120 s, and the
negative integer `-120` is rejected. -/
theorem c5_eta_parsing_witness :
    parseVolumeCopyETA (gs "120") =
        ((digitsToNat (gs "120") 0 : Int) * nsPerSecond, true) ∧
      parseVolumeCopyETA ('-' :: gs "120") = (0, false) :=
  ⟨c5_eta_parsing.2.1 (gs "120") (by decide) (by decide) (by decide),
    c5_eta_parsing.2.2.1 (gs "120") (by decide) (by decide) (by decide) (by decide)⟩

end MsaSpec

namespace MsaSpec

/-! ## C4: size parsing and the tolerance comparison (resource_volume.go) -/

theorem bitLenAux_le_iff : ∀ fuel n k : Nat, n ≤ fuel →
    (bitLenAux fuel n ≤ k ↔ n < 2 ^ k) := by
  intro fuel
  induction fuel with
  | zero =>
    intro n k hn
    have h0 : n = 0 := Nat.le_zero.mp hn
    subst h0
    simp [bitLenAux]
  | succ fuel ih =>
    intro n k hn
    simp only [bitLenAux]
    by_cases h0 : n = 0
    · subst h0
      simp
    · rw [if_neg h0]
      cases k with
      | zero =>
        rw [pow_zero]
        constructor
        · intro h
          omega
        · intro h
          exact absurd (by omega) h0
      | succ k =>
        have hdiv : n / 2 ≤ fuel := by
          have := Nat.div_lt_self (Nat.pos_of_ne_zero h0) one_lt_two
          omega
        have hih := ih (n / 2) k hdiv
        rw [pow_succ]
        constructor
        · intro h
          have h2 : bitLenAux fuel (n / 2) ≤ k := by omega
          have h3 := hih.mp h2
          omega
        · intro h
          have h2 : n / 2 < 2 ^ k := by omega
          have h3 := hih.mpr h2
          omega

theorem bitLen_le_iff (n k : Nat) : bitLen n ≤ k ↔ n < 2 ^ k :=
  bitLenAux_le_iff n n k (Nat.le_refl n)

theorem rneNat_def (n d : Nat) : rneNat n d =
    if 2 * (n % d) < d then n / d
    else if d < 2 * (n % d) then n / d + 1
    else if (n / d) % 2 = 0 then n / d else n / d + 1 := rfl

theorem rneNat_le_div (n d : Nat) : n / d ≤ rneNat n d := by
  rw [rneNat_def]
  split_ifs <;> first | exact Nat.le_refl _ | exact Nat.le_succ _

theorem rneNat_mul_le (n d : Nat) (hd : 0 < d) : rneNat n d * d ≤ n + d / 2 := by
  rw [rneNat_def]
  have h1 : d * (n / d) + n % d = n := Nat.div_add_mod n d
  have h2 : n % d < d := Nat.mod_lt n hd
  have hle : n / d * d ≤ n + d / 2 :=
    calc n / d * d = d * (n / d) := Nat.mul_comm _ _
    _ ≤ d * (n / d) + n % d := Nat.le_add_right _ _
    _ = n := h1
    _ ≤ n + d / 2 := Nat.le_add_right _ _
  have hsucc : d < 2 * (n % d) ∨ 2 * (n % d) = d → (n / d + 1) * d ≤ n + d / 2 := by
    intro hcase
    have h3 : d ≤ n % d + d / 2 := by omega
    calc (n / d + 1) * d = d * (n / d) + d := by ring
    _ ≤ d * (n / d) + (n % d + d / 2) := Nat.add_le_add_left h3 _
    _ = n + d / 2 := by rw [← Nat.add_assoc, h1]
  split_ifs with ha hb hc
  · exact hle
  · exact hsucc (Or.inl hb)
  · exact hle
  · exact hsucc (Or.inr (by omega))

theorem rneNat_aligned_ge (n d A : Nat) (hd : 0 < d)
    (h : A * d ≤ n) : A ≤ rneNat n d := by
  have h1 : A ≤ n / d := (Nat.le_div_iff_mul_le hd).mpr h
  exact Nat.le_trans h1 (rneNat_le_div n d)


theorem goInt64_natCast_e0 (a : Nat) (ha : (a : Int) < 2 ^ 63) :
    goInt64OfF64 ((a : Int), 0) = (a : Int) := by
  simp only [goInt64OfF64, truncF64]
  norm_num
  intro h
  exfalso
  omega

theorem truncAbs_exact (d : Int) (hd : d.natAbs ≤ 2 ^ 53) :
    goInt64OfF64 (absF64 (f64OfInt d)) = (d.natAbs : Int) := by
  by_cases h : d.natAbs < 2 ^ 53
  · have hbl : bitLen d.natAbs ≤ 53 := (bitLen_le_iff _ 53).mpr h
    unfold f64OfInt roundDyadic
    rw [if_pos (show bitLen ((d, (0:Int)) : F64).1.natAbs ≤ 53 from hbl)]
    have habs : absF64 (d, 0) = ((d.natAbs : Int), 0) := rfl
    rw [habs]
    exact goInt64_natCast_e0 d.natAbs (by omega)
  · have hd2 : d = 2 ^ 53 ∨ d = -(2 ^ 53) := by omega
    rcases hd2 with h2 | h2 <;> subst h2 <;> decide

theorem f64OfInt_small (d : Int) (hd : d.natAbs < 2 ^ 53) : f64OfInt d = (d, 0) := by
  unfold f64OfInt roundDyadic
  rw [if_pos (show bitLen ((d, (0:Int)) : F64).1.natAbs ≤ 53 from (bitLen_le_iff _ 53).mpr hd)]

theorem goInt64_negExp (a w : Nat) (hw : 0 < w) (h : a / 2 ^ w < 2 ^ 63) :
    goInt64OfF64 ((a : Int), -(w : Int)) = ((a / 2 ^ w : Nat) : Int) := by
  simp only [goInt64OfF64, truncF64, divTrunc]
  rw [if_neg (show ¬((0:Int) ≤ (((a : Int), -(w : Int)) : F64).2) by simp; omega)]
  rw [if_neg (show ¬((((a : Int), -(w : Int)) : F64).1 < 0) by simp)]
  have hw2 : (-(((a : Int), -(w : Int)) : F64).2).toNat = w := by simp
  rw [hw2]
  have hna : (((a : Int), -(w : Int)) : F64).1.natAbs = a := by simp
  rw [hna]
  generalize hq : a / 2 ^ w = q at h ⊢
  rw [if_neg (by push_neg; omega)]

theorem relTol_eq (pb : Int) (h0 : 0 ≤ pb) (hlt : pb < 2 ^ 40) :
    goInt64OfF64 (mulF64 (f64OfInt pb) pointOnePercentF64) =
      ((pb.toNat / 1000 : Nat) : Int) := by
  have hsmall : f64OfInt pb = (pb, 0) := f64OfInt_small pb (by omega)
  rw [hsmall]
  set m : Nat := 4611686018427388 with hm
  set p : Nat := pb.toNat with hp
  have hpb : pb = (p : Int) := by omega
  set N : Nat := p * m with hN
  set k : Nat := p / 1000 with hk
  have hplt : p < 2 ^ 40 := by omega
  have hmul : mulF64 (pb, 0) pointOnePercentF64 = roundDyadic ((N : Int), -62) := by
    rw [hpb]
    show roundDyadic ((p : Int) * 4611686018427388, (0:Int) + -62) = roundDyadic ((N : Int), -62)
    rw [show ((p : Int) * 4611686018427388 : Int) = ((N : Int) : Int) from by
          rw [hN, hm]; push_cast; ring,
        show ((0:Int) + -62 : Int) = (-62 : Int) from by norm_num]
  rw [hmul]
  unfold roundDyadic
  by_cases hL : bitLen ((((N : Int), (-62 : Int)) : F64)).1.natAbs ≤ 53
  · rw [if_pos hL]
    have hL2 : bitLen N ≤ 53 := by simpa using hL
    have hN53 : N < 2 ^ 53 := (bitLen_le_iff N 53).mp hL2
    have hp1 : p ≤ 1 := by
      by_contra hcon
      push_neg at hcon
      have h1 : 2 * m ≤ p * m := Nat.mul_le_mul_right m hcon
      rw [← hN] at h1
      rw [hm] at h1
      omega
    have hk0 : k = 0 := by omega
    rw [hk0]
    rw [show ((-62 : Int)) = -((62 : Nat) : Int) from by norm_num]
    rw [goInt64_negExp N 62 (by norm_num) (by
      have : N / 2 ^ 62 = 0 := Nat.div_eq_of_lt (by omega)
      omega)]
    have : N / 2 ^ 62 = 0 := Nat.div_eq_of_lt (by omega)
    rw [this]
  · rw [if_neg hL]
    have hL2 : ¬(bitLen N ≤ 53) := by simpa using hL
    have hNge : 2 ^ 53 ≤ N := by
      have := (bitLen_le_iff N 53)
      omega
    have hNle : N ≤ 1099511627775 * m := Nat.mul_le_mul_right m (by omega)
    have hN93 : N < 2 ^ 93 := by
      have h2 : (1099511627775 : Nat) * m < 2 ^ 93 := by norm_num [hm]
      omega
    have hbl93 : bitLen N ≤ 93 := (bitLen_le_iff N 93).mpr hN93
    simp only [Int.natAbs_ofNat]
    set s : Nat := bitLen N - 53 with hs
    have hs1 : 1 ≤ s := by omega
    have hs40 : s ≤ 40 := by omega
    set r : Nat := rneNat N (2 ^ s) with hr
    rw [if_neg (show ¬(((((N : Int), (-62 : Int)) : F64)).1 < 0) by simp)]
    have hsnd : ((((N : Int), (-62 : Int)) : F64)).2 + (s : Int) = -(((62 - s : Nat) : Int)) := by
      simp
      omega
    rw [hsnd]
    -- decimal decomposition facts
    have h1000 : 1000 * m = 2 ^ 62 + 96 := by norm_num [hm]
    have hpk : 1000 * k ≤ p := by omega
    have hlow : k * 2 ^ 62 ≤ N := by
      calc k * 2 ^ 62 ≤ k * (1000 * m) := Nat.mul_le_mul_left k (by omega)
      _ = (1000 * k) * m := by ring
      _ ≤ p * m := Nat.mul_le_mul_right m hpk
      _ = N := by rw [hN]
    have hjle : p - 1000 * k ≤ 999 := by omega
    have hjm : (p - 1000 * k) * m ≤ 999 * m := Nat.mul_le_mul_right m hjle
    have h999 : (999 : Nat) * m = 4607074332408960612 := by norm_num [hm]
    rw [h999] at hjm
    have hNdecomp : N = 1000 * k * m + (p - 1000 * k) * m := by
      rw [← Nat.add_mul]
      rw [hN]
      congr 1
      omega
    have hkm : 1000 * k * m = k * 2 ^ 62 + k * 96 := by
      calc 1000 * k * m = k * (1000 * m) := by ring
      _ = k * (2 ^ 62 + 96) := by rw [h1000]
      _ = k * 2 ^ 62 + k * 96 := by ring
    have h2s : 2 ^ (s - 1) ≤ 2 ^ 39 := Nat.pow_le_pow_right (by norm_num) (by omega)
    have hup : N + 2 ^ (s - 1) < (k + 1) * 2 ^ 62 := by
      rw [hNdecomp, hkm]
      have hexp : (k + 1) * 2 ^ 62 = k * 2 ^ 62 + 2 ^ 62 := by ring
      rw [hexp]
      generalize hJ : (p - 1000 * k) * m = J at hjm
      generalize ht : (2 : Nat) ^ (s - 1) = t at h2s
      have hkb : k ≤ 1099511627 := by omega
      omega
    have hhalf : 2 ^ s / 2 = 2 ^ (s - 1) := by
      rw [show s = (s - 1) + 1 from by omega, pow_succ]
      simp
    have hrup : r * 2 ^ s ≤ N + 2 ^ (s - 1) := by
      have h1 := rneNat_mul_le N (2 ^ s) (Nat.pos_pow_of_pos s (by norm_num))
      rw [hhalf] at h1
      rw [hr]
      exact h1
    have hrlow : k * 2 ^ (62 - s) ≤ r := by
      rw [hr]
      apply rneNat_aligned_ge N (2 ^ s) _ (Nat.pos_pow_of_pos s (by norm_num))
      have heq : k * 2 ^ (62 - s) * 2 ^ s = k * 2 ^ 62 := by
        rw [mul_assoc, ← pow_add]
        congr 2
        omega
      rw [heq]
      exact hlow
    have hrhigh : r < (k + 1) * 2 ^ (62 - s) := by
      by_contra hcon
      push_neg at hcon
      have h1 : (k + 1) * 2 ^ (62 - s) * 2 ^ s ≤ r * 2 ^ s :=
        Nat.mul_le_mul_right _ hcon
      have heq : (k + 1) * 2 ^ (62 - s) * 2 ^ s = (k + 1) * 2 ^ 62 := by
        rw [mul_assoc, ← pow_add]
        congr 2
        omega
      rw [heq] at h1
      exact absurd (le_trans h1 hrup) (Nat.not_le.mpr hup)
    have hdiv : r / 2 ^ (62 - s) = k := Nat.div_eq_of_lt_le hrlow hrhigh
    rw [goInt64_negExp r (62 - s) (by omega) (by rw [hdiv]; omega)]
    rw [hdiv]

theorem sizeTolerance_eq (pb : Int) (h0 : 0 ≤ pb) (hlt : pb < 2 ^ 40) :
    sizeTolerance pb = max 8388608 ((pb.toNat / 1000 : Nat) : Int) := by
  unfold sizeTolerance
  rw [relTol_eq pb h0 hlt]
  rcases le_or_lt (8388608 : Int) ((pb.toNat / 1000 : Nat) : Int) with h | h
  · rw [if_neg (by omega), max_eq_right h]
  · rw [if_pos (by omega), max_eq_left (by omega)]
    norm_num

/-- C4 (amended): in the overflow-free regime (plan bytes below 2^40, block
count times 512 at most 2^53) `volumeSizeMatches` returns true exactly when
the absolute difference between the plan bytes and `blocks * 512` is at most
the larger of 8 MiB and 0.1 percent of the plan bytes (exact rational
comparison). -/
theorem c4_size_tolerance (S : Str) (v : VolumeGo) (pb blocks : Int)
    (hparse : parseSizeToBytes S = .ok pb)
    (hpb0 : 0 ≤ pb) (hpb : pb < 2 ^ 40)
    (hblocks : goAtoi64 v.sizeNumeric = some blocks)
    (hb0 : 0 ≤ blocks) (hb : blocks * 512 ≤ 2 ^ 53) :
    (volumeSizeMatches S v = .ok true ↔
      |(pb : ℚ) - 512 * (blocks : ℚ)| ≤ max 8388608 ((pb : ℚ) / 1000)) := by
  have hsn : v.sizeNumeric ≠ [] := by
    intro hnil
    rw [hnil] at hblocks
    simp [goAtoi64] at hblocks
  simp only [volumeSizeMatches, hparse, hblocks]
  rw [if_neg hsn]
  rw [wrap64_eq_self (show -(2 ^ 63) ≤ blocks * 512 by omega) (by omega)]
  rw [wrap64_eq_self (show -(2 ^ 63) ≤ pb - blocks * 512 by omega) (by omega)]
  rw [truncAbs_exact (pb - blocks * 512) (by omega)]
  rw [sizeTolerance_eq pb hpb0 hpb]
  have hok : ∀ b : Bool, (Except.ok b : Except Str Bool) = .ok true ↔ b = true := by
    intro b
    constructor
    · intro h
      injection h
    · intro h
      rw [h]
  rw [hok, decide_eq_true_eq]
  have habs : |(pb : ℚ) - 512 * (blocks : ℚ)| =
      ((((pb - blocks * 512).natAbs : Int)) : ℚ) := by
    rw [show (pb : ℚ) - 512 * (blocks : ℚ) = ((pb - blocks * 512 : Int) : ℚ) from by
      push_cast; ring]
    rw [← Int.cast_abs, Int.abs_eq_natAbs]
  rw [habs]
  set a : Int := (((pb - blocks * 512).natAbs : Int)) with ha
  have ha0 : 0 ≤ a := by positivity
  rw [le_max_iff, le_max_iff]
  constructor
  · rintro (h | h)
    · left
      exact_mod_cast h
    · right
      rw [le_div_iff₀ (by norm_num : (0:ℚ) < 1000)]
      have h2 : a.toNat * 1000 ≤ pb.toNat := (Nat.le_div_iff_mul_le (by norm_num)).mp (by omega)
      have h3 : a * 1000 ≤ pb := by omega
      exact_mod_cast h3
  · rintro (h | h)
    · left
      exact_mod_cast h
    · right
      rw [le_div_iff₀ (by norm_num : (0:ℚ) < 1000)] at h
      have h3 : a * 1000 ≤ pb := by exact_mod_cast h
      have h2 : a.toNat ≤ pb.toNat / 1000 := (Nat.le_div_iff_mul_le (by norm_num)).mpr (by omega)
      omega

/-- C4 counterexample: for a plan size of 1 GiB and a volume whose
`size-numeric` is 2^55 + 2^21 blocks, the int64 product `blocks * 512` wraps
around so that `volumeSizeMatches` reports a match even though the true
difference is 2^64 bytes, far beyond the documented tolerance. -/
theorem c4_overflow_counterexample :
    parseSizeToBytes (gs "1GiB") = .ok 1073741824 ∧
    goAtoi64 (gs "36028797021061120") = some 36028797021061120 ∧
    volumeSizeMatches (gs "1GiB") { sizeNumeric := gs "36028797021061120" } = .ok true ∧
    ¬(|(1073741824 : ℚ) - 512 * 36028797021061120| ≤
        max 8388608 ((1073741824 : ℚ) / 1000)) := by
  refine ⟨by rfl, by rfl, by rfl, ?_⟩
  rw [le_max_iff]
  push_neg
  constructor
  · rw [abs_of_nonpos (by norm_num)]
    norm_num
  · rw [abs_of_nonpos (by norm_num)]
    norm_num

/-- C4 witness: a genuine 1 GiB volume (2097152 blocks of 512 bytes) is
accepted, via the amended theorem at concrete inputs. -/
theorem c4_size_tolerance_witness :
    volumeSizeMatches (gs "1GiB") { sizeNumeric := gs "2097152" } = .ok true :=
  (c4_size_tolerance (gs "1GiB") { sizeNumeric := gs "2097152" } 1073741824 2097152
      (by rfl) (by norm_num) (by norm_num) (by rfl) (by norm_num)
      (by norm_num)).mpr
    (by
      rw [le_max_iff]
      left
      norm_num)

end MsaSpec

namespace MsaSpec

/-! ## C1: the delete path and the pre-delete usage guardrail -/

/-- C1 counterexample: with `allow_destroy = true` in state and an array on
which `show maps volume vol-data-01` reports a matching mapping, the volume
Delete body issues the `delete volumes` command directly — its command trace
contains no probe command and its diagnostics contain no guardrail refusal —
even though `preDeleteVolumeUsageGuardrail` evaluated against the very same
array would return the terminal "Volume deletion blocked: mapped" guardrail.
The guardrail helper is never invoked from either Delete body. -/
theorem c1_guardrail_not_invoked_counterexample :
    volumeResourceDelete
        { name := .val (gs "vol-data-01"), allowDestroy := .val true } mappedExec =
      ([[gs "delete", gs "volumes", gs "vol-data-01"]], []) ∧
    cloneResourceDelete
        { name := .val (gs "vol-data-01"), allowDestroy := .val true } mappedExec =
      ([[gs "delete", gs "volumes", gs "vol-data-01"]], []) ∧
    (preDeleteVolumeUsageGuardrail mappedExec (gs "volume") [gs "vol-data-01"]).map
        (fun g => (g.summary, g.retryable)) =
      some (gs "Volume deletion blocked: mapped", false) := by
  refine ⟨by rfl, by rfl, by rfl⟩

/-- C1 (amended): neither Delete body consults the pre-delete usage guardrail.
For every stored state that passes the allow-destroy consent check and has a
non-empty delete target, and for EVERY array oracle, the volume and clone
Delete bodies issue exactly the single `delete volumes <target>` command — no
probe command ever appears in the trace.  The guardrail helper itself (present
in the repository but unreferenced from the delete paths) does behave as the
spec describes: on the mapped fixture it reports the terminal
"Volume deletion blocked: mapped" refusal. -/
theorem c1_delete_skips_guardrail (vstate : VolumeResourceModel)
    (cstate : CloneResourceModel) (exec : ExecGo)
    (hvu : tfBoolIsUnknown vstate.allowDestroy = false)
    (hvv : tfBoolValue vstate.allowDestroy = true)
    (hvt : ¬(goTrim (volumeDeleteTarget vstate) = []))
    (hcu : tfBoolIsUnknown cstate.allowDestroy = false)
    (hcn : tfBoolIsNull cstate.allowDestroy = false)
    (hcv : tfBoolValue cstate.allowDestroy = true)
    (hct : ¬(goTrim (cloneDeleteTarget cstate) = [])) :
    (volumeResourceDelete vstate exec).1 =
      [[gs "delete", gs "volumes", volumeDeleteTarget vstate]] ∧
    (cloneResourceDelete cstate exec).1 =
      [[gs "delete", gs "volumes", cloneDeleteTarget cstate]] ∧
    (preDeleteVolumeUsageGuardrail mappedExec (gs "volume") [gs "vol-data-01"]).map
        (fun g => (g.summary, g.retryable)) =
      some (gs "Volume deletion blocked: mapped", false) := by
  refine ⟨?_, ?_, by rfl⟩
  · unfold volumeResourceDelete
    rw [if_neg (by simp [hvu, hvv])]
    rw [if_neg hvt]
    cases exec [gs "delete", gs "volumes", volumeDeleteTarget vstate] <;> rfl
  · unfold cloneResourceDelete
    rw [if_neg (by simp [hcu, hcn, hcv])]
    rw [if_neg hct]
    cases exec [gs "delete", gs "volumes", cloneDeleteTarget cstate] <;> rfl

/-- C1 witness: the amended theorem applied at the mapped fixture oracle with
concrete consenting volume and clone states. -/
theorem c1_delete_skips_guardrail_witness :
    (volumeResourceDelete
        { name := .val (gs "vol-data-01"), allowDestroy := .val true } mappedExec).1 =
      [[gs "delete", gs "volumes", gs "vol-data-01"]] ∧
    (cloneResourceDelete
        { name := .val (gs "clone-a"), allowDestroy := .val true } mappedExec).1 =
      [[gs "delete", gs "volumes", gs "clone-a"]] := by
  have h := c1_delete_skips_guardrail
    { name := .val (gs "vol-data-01"), allowDestroy := .val true }
    { name := .val (gs "clone-a"), allowDestroy := .val true }
    mappedExec (by decide) (by decide) (by decide) (by decide) (by decide)
    (by decide) (by decide)
  exact ⟨h.1, h.2.1⟩

end MsaSpec
